import Mathlib

/-!
# UserActRep: the OAuth gateway and its token file

A shallow embedding of `getTokenServer.js` (the gateway: four routes, three
module-level variables and the file `tokens.json`) and of `gotoAuth.js`
(the authorization helper), followed by theorems about them.

## Modelling conventions

* JavaScript values are the inductive type `JsVal`: `undefined`, `null`,
  booleans, strings, arrays and plain objects.  Numbers are left out: an
  Express query never holds one, OAuth token fields are strings, and their
  text form is IEEE-754 arithmetic.  A JSON text that holds a number is
  reported as `ParseError.unsupported`, never silently misread.
* A JavaScript string is a Lean `String`, a sequence of Unicode scalar values;
  a string holding a lone surrogate has no counterpart here, and a JSON escape
  that denotes one is reported as `ParseError.unsupported` as well.
* A plain object is an association list in insertion order whose keys are
  distinct; property lookup `JsVal.getProp` returns `undefined` for a missing key.
* `tokens.json` is `State.tokenFile : Option String`: `none` when the file does
  not exist, otherwise its text.  Writing always succeeds and a file that exists
  can be read.
* Every handler is one atomic step `State → request → State × Response × List Effect`.
  The answers of the outside world (the provider's token endpoint, the reporting
  API) are function arguments, and each call made is recorded in the list of
  effects, so "no call was made" is a statement about that list.
* `console.log` output is not modelled; a logging expression is modelled only
  where evaluating it can throw.
-/

namespace UserActRep

/-! ## JavaScript values -/

/-- JavaScript values that can flow through the gateway. -/
inductive JsVal where
  | undefined
  | null
  | bool (b : Bool)
  | str (s : String)
  | arr (xs : List JsVal)
  | obj (kvs : List (String × JsVal))

namespace JsVal

/-- ToBoolean: what `if (v)`, `!v` and `v || w` test. -/
def truthy : JsVal → Bool
  | undefined => false
  | null => false
  | bool b => b
  | str s => s != ""
  | arr _ => true
  | obj _ => true

/-- The operator `a || b`. -/
def or (a b : JsVal) : JsVal := if a.truthy then a else b

/-- Strict equality `a === b`.  Arrays and objects are compared by identity;
every array or object in this model is created where it is read (a query is
parsed per request, a token object per exchange), so two of them held in
different places are never the same object. -/
def strictEq : JsVal → JsVal → Bool
  | undefined, undefined => true
  | null, null => true
  | bool a, bool b => a == b
  | str a, str b => a == b
  | _, _ => false

/-- The operator `a !== b`. -/
def strictNe (a b : JsVal) : Bool := !(strictEq a b)

/-- Own-property lookup in an association list: `none` when the key is missing. -/
def lookup (k : String) : List (String × JsVal) → Option JsVal
  | [] => none
  | (k', v) :: rest => if k' = k then some v else lookup k rest

/-- Property read `v.k` for the keys the gateway reads (none of them is a
property of `Object.prototype`, `String.prototype` or `Array.prototype`):
the own property of a plain object, `undefined` otherwise. -/
def getProp (v : JsVal) (k : String) : JsVal :=
  match v with
  | obj kvs => (lookup k kvs).getD undefined
  | _ => undefined

/-- Whether an association list has the key. -/
def hasKey (k : String) : List (String × JsVal) → Bool
  | [] => false
  | (k', _) :: rest => k' == k || hasKey k rest

/-- The keys of an association list. -/
def keys (kvs : List (String × JsVal)) : List String := kvs.map Prod.fst

mutual
/-- ToString, as a template literal or `+ '...'` applies it; `none` is a thrown
TypeError.  An array is joined with commas, `null` and `undefined` elements
rendering as the empty string.  A plain object renders as `[object Object]`
through `Object.prototype.toString`; when it has an own property `toString`
(always a non-callable value here) the conversion falls through to `valueOf`,
which returns the object itself, and throws. -/
def toStr : JsVal → Option String
  | undefined => some "undefined"
  | null => some "null"
  | bool b => some (if b then "true" else "false")
  | str s => some s
  | arr xs => joinStr xs
  | obj kvs => if hasKey "toString" kvs then none else some "[object Object]"
/-- The method `Array.prototype.join` with the default separator. -/
def joinStr : List JsVal → Option String
  | [] => some ""
  | [x] => elemStr x
  | x :: y :: rest =>
    match elemStr x, joinStr (y :: rest) with
    | some a, some b => some (a ++ "," ++ b)
    | _, _ => none
/-- One element of a join: `undefined` and `null` give the empty string. -/
def elemStr : JsVal → Option String
  | undefined => some ""
  | null => some ""
  | bool b => some (if b then "true" else "false")
  | str s => some s
  | arr xs => joinStr xs
  | obj kvs => if hasKey "toString" kvs then none else some "[object Object]"
end

end JsVal

open JsVal

/-! ## JSON.stringify -/

/-- The double quote, U+0022. -/
def dquote : Char := Char.ofNat 34
/-- The backslash, U+005C. -/
def bslash : Char := Char.ofNat 92
/-- The opening brace, U+007B. -/
def lbrace : Char := Char.ofNat 123
/-- The closing brace, U+007D. -/
def rbrace : Char := Char.ofNat 125
/-- The opening bracket, U+005B. -/
def lbracket : Char := Char.ofNat 91
/-- The closing bracket, U+005D. -/
def rbracket : Char := Char.ofNat 93

/-- One lowercase hexadecimal digit. -/
def hexDigit (n : Nat) : Char :=
  if n < 10 then Char.ofNat (48 + n) else Char.ofNat (87 + n)

/-- QuoteJSONString, one character: the two-character escapes, `\u00xx` for
the other control characters, the character itself otherwise. -/
def quoteChar (c : Char) : List Char :=
  if c = dquote then [bslash, dquote]
  else if c = bslash then [bslash, bslash]
  else if c.toNat = 8 then [bslash, 'b']
  else if c.toNat = 12 then [bslash, 'f']
  else if c.toNat = 10 then [bslash, 'n']
  else if c.toNat = 13 then [bslash, 'r']
  else if c.toNat = 9 then [bslash, 't']
  else if c.toNat < 32 then
    [bslash, 'u', '0', '0', hexDigit (c.toNat / 16), hexDigit (c.toNat % 16)]
  else [c]

/-- The escaped body of a string. -/
def quoteChars : List Char → List Char
  | [] => []
  | c :: cs => quoteChar c ++ quoteChars cs

/-- QuoteJSONString. -/
def quoteJSONString (s : String) : List Char :=
  dquote :: (quoteChars s.data ++ [dquote])

/-- Join the serialized parts with a separator. -/
def joinParts (sep : List Char) : List (List Char) → List Char
  | [] => []
  | [p] => p
  | p :: q :: rest => p ++ sep ++ joinParts sep (q :: rest)

/-- The tail of SerializeJSONObject and SerializeJSONArray: the parts between
the brackets `l` and `r`, one per line at the new indentation when there is a gap. -/
def wrapParts (l r : Char) (gap stepback : List Char) (parts : List (List Char)) : List Char :=
  if parts.isEmpty then [l, r]
  else if gap.isEmpty then l :: (joinParts [','] parts ++ [r])
  else
    let indent := stepback ++ gap
    l :: '\n' :: (indent ++ joinParts (',' :: '\n' :: indent) parts ++ '\n' :: (stepback ++ [r]))

mutual
/-- SerializeJSONProperty at the indentation `indent`; `none` is the result
`undefined`. -/
def serValue (gap indent : List Char) : JsVal → Option (List Char)
  | JsVal.undefined => none
  | JsVal.null => some ['n', 'u', 'l', 'l']
  | JsVal.bool b => some (if b then ['t', 'r', 'u', 'e'] else ['f', 'a', 'l', 's', 'e'])
  | JsVal.str s => some (quoteJSONString s)
  | JsVal.arr xs =>
    some (wrapParts lbracket rbracket gap indent (serElems gap (indent ++ gap) xs))
  | JsVal.obj kvs =>
    some (wrapParts lbrace rbrace gap indent (serMembers gap (indent ++ gap) kvs))
/-- The elements of an array: one that serializes to `undefined` is written `null`. -/
def serElems (gap indent : List Char) : List JsVal → List (List Char)
  | [] => []
  | x :: xs =>
    (match serValue gap indent x with
     | some t => t
     | none => ['n', 'u', 'l', 'l']) :: serElems gap indent xs
/-- The members of an object: one whose value serializes to `undefined` is left out. -/
def serMembers (gap indent : List Char) : List (String × JsVal) → List (List Char)
  | [] => []
  | (k, v) :: rest =>
    match serValue gap indent v with
    | some t =>
      (quoteJSONString k ++ ':' :: ((if gap.isEmpty then [] else [' ']) ++ t))
        :: serMembers gap indent rest
    | none => serMembers gap indent rest
end

/-- The call `JSON.stringify(v, null, n)` for a number `n` between 0 and 10:
the gap is `n` spaces.  `none` is the result `undefined`. -/
def jsonStringify (v : JsVal) (n : Nat) : Option String :=
  (serValue (List.replicate n ' ') [] v).map String.mk

/-! ## JSON.parse -/

/-- Why the model of `JSON.parse` gives no value. -/
inductive ParseError where
  /-- The text is not JSON: `JSON.parse` throws a SyntaxError. -/
  | malformed
  /-- The text holds a number or an escaped lone surrogate: outside this model. -/
  | unsupported
  /-- The recursion budget ran out; `jsonParse_ne_outOfFuel` shows `jsonParse` never
  reports it. -/
  | outOfFuel
  deriving DecidableEq, Repr

/-- JSON whitespace: space, tab, line feed, carriage return. -/
def isWs (c : Char) : Bool :=
  c.toNat = 32 || c.toNat = 9 || c.toNat = 10 || c.toNat = 13

/-- Drop leading whitespace. -/
def skipWs : List Char → List Char
  | [] => []
  | c :: cs => if isWs c then skipWs cs else c :: cs

/-- The value of a hexadecimal digit of either case. -/
def hexVal (c : Char) : Option Nat :=
  if 48 ≤ c.toNat ∧ c.toNat ≤ 57 then some (c.toNat - 48)
  else if 97 ≤ c.toNat ∧ c.toNat ≤ 102 then some (c.toNat - 87)
  else if 65 ≤ c.toNat ∧ c.toNat ≤ 70 then some (c.toNat - 55)
  else none

/-- The code unit written by four hexadecimal digits. -/
def hex4 (a b c d : Char) : Option Nat :=
  match hexVal a, hexVal b, hexVal c, hexVal d with
  | some x, some y, some z, some w => some (((x * 16 + y) * 16 + z) * 16 + w)
  | _, _, _, _ => none

/-- Put a code point in front of a scanned string body. -/
def consUnit (u : Nat) :
    Except ParseError (List Nat × List Char) → Except ParseError (List Nat × List Char)
  | .ok (us, rest) => .ok (u :: us, rest)
  | .error e => .error e

/-- Scan a string body, after its opening quote, up to the closing quote:
the code points it denotes (an escape `\uXXXX` gives one UTF-16 code unit, a
character written as itself gives its scalar value) and the text left over. -/
def scanString : List Char → Except ParseError (List Nat × List Char)
  | [] => .error .malformed
  | c :: cs =>
    if c = dquote then .ok ([], cs)
    else if c = bslash then
      match cs with
      | [] => .error .malformed
      | e :: cs1 =>
        if e = dquote then consUnit 34 (scanString cs1)
        else if e = bslash then consUnit 92 (scanString cs1)
        else if e = '/' then consUnit 47 (scanString cs1)
        else if e = 'b' then consUnit 8 (scanString cs1)
        else if e = 'f' then consUnit 12 (scanString cs1)
        else if e = 'n' then consUnit 10 (scanString cs1)
        else if e = 'r' then consUnit 13 (scanString cs1)
        else if e = 't' then consUnit 9 (scanString cs1)
        else if e = 'u' then
          match cs1 with
          | h1 :: h2 :: h3 :: h4 :: cs2 =>
            match hex4 h1 h2 h3 h4 with
            | some u => consUnit u (scanString cs2)
            | none => .error .malformed
          | _ => .error .malformed
        else .error .malformed
    else if c.toNat < 32 then .error .malformed
    else consUnit c.toNat (scanString cs)

/-- Turn the scanned code points into characters: a high surrogate followed by
a low one is the character they encode, a surrogate on its own has no Lean
character. -/
def decodeUnits : List Nat → Except ParseError (List Char)
  | [] => .ok []
  | [u] =>
    if 0xD800 ≤ u ∧ u ≤ 0xDFFF then .error .unsupported else .ok [Char.ofNat u]
  | u :: v :: rest =>
    if 0xD800 ≤ u ∧ u ≤ 0xDBFF then
      if 0xDC00 ≤ v ∧ v ≤ 0xDFFF then
        match decodeUnits rest with
        | .ok cs => .ok (Char.ofNat (0x10000 + (u - 0xD800) * 0x400 + (v - 0xDC00)) :: cs)
        | .error e => .error e
      else .error .unsupported
    else if 0xDC00 ≤ u ∧ u ≤ 0xDFFF then .error .unsupported
    else
      match decodeUnits (v :: rest) with
      | .ok cs => .ok (Char.ofNat u :: cs)
      | .error e => .error e

/-- A JSON string, after its opening quote: its value and the text left over. -/
def parseString (input : List Char) : Except ParseError (String × List Char) :=
  match scanString input with
  | .error e => .error e
  | .ok (us, rest) =>
    match decodeUnits us with
    | .error e => .error e
    | .ok cs => .ok (String.mk cs, rest)

/-- CreateDataProperty on an association list: a key already present keeps its
place and takes the new value, a new key goes last. -/
def setProp (k : String) (v : JsVal) : List (String × JsVal) → List (String × JsVal)
  | [] => [(k, v)]
  | (k', v') :: rest => if k' = k then (k, v) :: rest else (k', v') :: setProp k v rest

/-- The text after the literal `lit`, when the text starts with it. -/
def dropLiteral : List Char → List Char → Option (List Char)
  | [], input => some input
  | _ :: _, [] => none
  | l :: ls, c :: cs => if l = c then dropLiteral ls cs else none

mutual
/-- A JSON value at the head of the text (whitespace already skipped): the
value and the text left over. -/
def parseValue : Nat → List Char → Except ParseError (JsVal × List Char)
  | 0, _ => .error .outOfFuel
  | _ + 1, [] => .error .malformed
  | fuel + 1, c :: cs =>
    if c = lbrace then
      match skipWs cs with
      | d :: rest => if d = rbrace then .ok (JsVal.obj [], rest)
                     else parseMembers fuel (d :: rest) []
      | [] => .error .malformed
    else if c = lbracket then
      match skipWs cs with
      | d :: rest => if d = rbracket then .ok (JsVal.arr [], rest)
                     else parseElements fuel (d :: rest) []
      | [] => .error .malformed
    else if c = dquote then
      match parseString cs with
      | .ok (s, rest) => .ok (JsVal.str s, rest)
      | .error e => .error e
    else if c = 't' then
      match dropLiteral ['r', 'u', 'e'] cs with
      | some rest => .ok (JsVal.bool true, rest)
      | none => .error .malformed
    else if c = 'f' then
      match dropLiteral ['a', 'l', 's', 'e'] cs with
      | some rest => .ok (JsVal.bool false, rest)
      | none => .error .malformed
    else if c = 'n' then
      match dropLiteral ['u', 'l', 'l'] cs with
      | some rest => .ok (JsVal.null, rest)
      | none => .error .malformed
    else if c = '-' ∨ (48 ≤ c.toNat ∧ c.toNat ≤ 57) then .error .unsupported
    else .error .malformed
/-- The members of an object from the first key on (whitespace already
skipped), added to the members `acc` read so far, up to the closing brace. -/
def parseMembers : Nat → List Char → List (String × JsVal) →
    Except ParseError (JsVal × List Char)
  | 0, _, _ => .error .outOfFuel
  | _ + 1, [], _ => .error .malformed
  | fuel + 1, c :: cs, acc =>
    if c = dquote then
      match parseString cs with
      | .error e => .error e
      | .ok (k, rest) =>
        match skipWs rest with
        | colon :: rest1 =>
          if colon = ':' then
            match parseValue fuel (skipWs rest1) with
            | .error e => .error e
            | .ok (v, rest2) =>
              match skipWs rest2 with
              | d :: rest3 =>
                if d = ',' then parseMembers fuel (skipWs rest3) (setProp k v acc)
                else if d = rbrace then .ok (JsVal.obj (setProp k v acc), rest3)
                else .error .malformed
              | [] => .error .malformed
          else .error .malformed
        | [] => .error .malformed
    else .error .malformed
/-- The elements of an array from the first one on (whitespace already
skipped), added to the elements `acc` read so far, up to the closing bracket. -/
def parseElements : Nat → List Char → List JsVal → Except ParseError (JsVal × List Char)
  | 0, _, _ => .error .outOfFuel
  | fuel + 1, input, acc =>
    match parseValue fuel input with
    | .error e => .error e
    | .ok (v, rest) =>
      match skipWs rest with
      | d :: rest1 =>
        if d = ',' then parseElements fuel (skipWs rest1) (acc ++ [v])
        else if d = rbracket then .ok (JsVal.arr (acc ++ [v]), rest1)
        else .error .malformed
      | [] => .error .malformed
end

/-- The call `JSON.parse(text)`: one value between optional whitespace.  Every
call of the parser consumes at least one character of the text, so twice its
length bounds the depth of the recursion (`parser_budget`). -/
def jsonParse (text : String) : Except ParseError JsVal :=
  match parseValue (2 * text.length + 2) (skipWs text.data) with
  | .error e => .error e
  | .ok (v, rest) => if (skipWs rest).isEmpty then .ok v else .error .malformed

/-! ## The query of a request -/

/-- A value of `req.query` as the query parser of Express builds it: a string,
an array (a repeated name, `a[]=`) or a nested object (`a[b]=`); never a
number, a boolean or `null`. -/
inductive QVal where
  | str (s : String)
  | arr (xs : List QVal)
  | obj (kvs : List (String × QVal))

mutual
/-- A query value as a JavaScript value. -/
def QVal.toJs : QVal → JsVal
  | QVal.str s => JsVal.str s
  | QVal.arr xs => JsVal.arr (QVal.listToJs xs)
  | QVal.obj kvs => JsVal.obj (QVal.fieldsToJs kvs)
/-- The elements of a query array as JavaScript values. -/
def QVal.listToJs : List QVal → List JsVal
  | [] => []
  | x :: xs => QVal.toJs x :: QVal.listToJs xs
/-- The members of a query object as JavaScript values. -/
def QVal.fieldsToJs : List (String × QVal) → List (String × JsVal)
  | [] => []
  | (k, v) :: rest => (k, QVal.toJs v) :: QVal.fieldsToJs rest
end

/-- The object `req.query`: the parsed query string, by name. -/
abbrev Query := List (String × QVal)

/-- Own-property lookup in a query. -/
def Query.find (k : String) : Query → Option QVal
  | [] => none
  | (k', v) :: rest => if k' = k then some v else Query.find k rest

/-- The read `req.query.k`: `undefined` when the query has no such name. -/
def Query.get (q : Query) (k : String) : JsVal :=
  match Query.find k q with
  | some v => v.toJs
  | none => JsVal.undefined

/-! ## gotoAuth.js -/

/-- The part of `simple-oauth2` and of the provider behind it that the helper
calls.  `authorizeURL` builds the authorization URL from redirect URI, scope and
state.  `getToken` posts code, redirect URI and scope to the token endpoint: it
gives the members of `tokenResponse.token`, or fails with an error whose
`message` is the string given. -/
structure OAuthClient where
  authorizeURL : JsVal → String → String → String
  getToken : JsVal → JsVal → String → Except String (List (String × JsVal))

/-- Two lowercase hexadecimal digits of a byte. -/
def hexByte (b : Nat) : List Char := [hexDigit (b / 16 % 16), hexDigit (b % 16)]

/-- The helper `generateState`, given the fifteen bytes `crypto.randomBytes(15)`
drew: their hexadecimal text. -/
def generateState (bytes : List Nat) : String :=
  String.mk (bytes.foldr (fun b acc => hexByte b ++ acc) [])

/-- The helper `getAuthUrl(scope)`: the authorization URL and the fresh state.
`redirectUri` is `process.env.OAUTH_REDIRECT_URI`. -/
def getAuthUrl (client : OAuthClient) (redirectUri : JsVal) (bytes : List Nat)
    (scope : String) : String × String :=
  let state := generateState bytes
  let url := client.authorizeURL redirectUri scope state
  (url, state)

/-- The helper `getToken(authCode, scope)`: the token object, or an error whose
message is the provider error's message behind `Access Token Error: `. -/
def getToken (client : OAuthClient) (redirectUri : JsVal) (authCode : JsVal)
    (scope : String) : Except String (List (String × JsVal)) :=
  match client.getToken authCode redirectUri scope with
  | .ok token => .ok token
  | .error message => .error ("Access Token Error: " ++ message)

/-! ## getTokenServer.js -/

/-- The constant `SCOPE`. -/
def SCOPE : String := "cr.v1.read"

/-- The module-level variables of the gateway, and the file `tokens.json`. -/
structure State where
  expectedState : JsVal
  latestAccessToken : JsVal
  latestRefreshToken : JsVal
  tokenFile : Option String

/-- The body of a response: text from `res.send`, a value from `res.json`. -/
inductive Body where
  | text (s : String)
  | json (v : JsVal)

/-- What a handler answers.  The status is 200 unless `res.status` set it. -/
structure Response where
  status : Nat
  body : Body

/-- A call a handler makes to the outside world. -/
inductive Effect where
  /-- The helper `getToken` posted code, redirect URI and scope to the provider. -/
  | tokenRequest (code : JsVal) (redirectUri : JsVal) (scope : String)
  /-- The call `fs.writeFileSync(TOKEN_FILE, text)`. -/
  | writeFile (text : String)
  /-- The call `axios.get(url, ...)` with its Authorization header and params. -/
  | httpGet (url : String) (authorization : String) (params : List (String × JsVal))

/-- What `axios.get` gives back.  `response` is a resolved promise: a reply
whose status is 2xx.  `failure` is a rejection with `error.message` and, when
the reporting API replied, `error.response` as its status and body.  A status
is the three-digit code of an HTTP reply. -/
inductive AxiosResult where
  | response (status : Nat) (data : JsVal)
  | failure (message : String) (response : Option (Nat × JsVal))

/-- The function `saveTokens`, up to the write itself: the text that
`JSON.stringify(tokens, null, 2)` hands to `fs.writeFileSync`.  `none` is the
result `undefined`, which `writeFileSync` refuses with a TypeError. -/
def saveTokens (tokens : JsVal) : Option String := jsonStringify tokens 2

/-- The function `loadTokens`: the parsed file, or the empty object when the
file is missing or is not JSON.  An error is a file outside this model. -/
def loadTokens (tokenFile : Option String) : Except ParseError JsVal :=
  match tokenFile with
  | some text =>
    match jsonParse text with
    | .ok v => .ok v
    | .error ParseError.malformed => .ok (JsVal.obj [])
    | .error e => .error e
  | none => .ok (JsVal.obj [])

/-- How the start of the process can end without a running gateway. -/
inductive StartupError where
  /-- The file parsed to `null`, which the destructuring assignment rejects. -/
  | crashed
  /-- The file is outside this model. -/
  | outsideModel (e : ParseError)

/-- The module body up to `app.listen`: the three variables start as `null`,
then the destructuring assignment gives the two token variables the
properties `accessToken` and `refreshToken` of what `loadTokens` returned. -/
def startup (tokenFile : Option String) : Except StartupError State :=
  match loadTokens tokenFile with
  | .error e => .error (StartupError.outsideModel e)
  | .ok JsVal.null => .error StartupError.crashed
  | .ok JsVal.undefined => .error StartupError.crashed
  | .ok tokens =>
    .ok { expectedState := JsVal.null
          latestAccessToken := tokens.getProp "accessToken"
          latestRefreshToken := tokens.getProp "refreshToken"
          tokenFile := tokenFile }

/-- The route `GET /auth`. -/
def authRoute (client : OAuthClient) (redirectUri : JsVal) (bytes : List Nat)
    (s : State) : State × Response × List Effect :=
  let (url, state) := getAuthUrl client redirectUri bytes SCOPE
  ({ s with expectedState := JsVal.str state },
   { status := 200, body := Body.text ("<a href=\"" ++ url ++ "\">Authorize with GoTo</a>") },
   [])

/-- The route `GET /api/latest-access-token`. -/
def latestAccessTokenRoute (s : State) : State × Response × List Effect :=
  if s.latestAccessToken.truthy then
    (s, { status := 200, body := Body.json (JsVal.obj [("accessToken", s.latestAccessToken)]) }, [])
  else
    (s, { status := 404,
          body := Body.json (JsVal.obj [("error", JsVal.str "No access token available")]) }, [])

/-- The message of the TypeError `fs.writeFileSync` throws for `undefined` data. -/
def writeTypeError : String :=
  "The \"data\" argument must be of type string or an instance of Buffer, TypedArray, or DataView. Received undefined"

/-- The route `GET /login/oauth2/code/goto`. -/
def callbackRoute (client : OAuthClient) (redirectUri : JsVal) (s : State) (q : Query) :
    State × Response × List Effect :=
  if strictNe (q.get "state") s.expectedState then
    (s, { status := 403, body := Body.text "Invalid state" }, [])
  else
    let request := Effect.tokenRequest (q.get "code") redirectUri SCOPE
    match getToken client redirectUri (q.get "code") SCOPE with
    | .ok token =>
      let s1 := { s with latestAccessToken := (JsVal.obj token).getProp "access_token"
                         latestRefreshToken := (JsVal.obj token).getProp "refresh_token" }
      match saveTokens (JsVal.obj [("accessToken", s1.latestAccessToken),
                                   ("refreshToken", s1.latestRefreshToken)]) with
      | some text =>
        ({ s1 with tokenFile := some text },
         { status := 200, body := Body.text "Access token received. Check your terminal." },
         [request, Effect.writeFile text])
      | none => (s1, { status := 500, body := Body.text writeTypeError }, [request])
    | .error message => (s, { status := 500, body := Body.text message }, [request])

/-- The constant `gotoUrl`. -/
def gotoUrl : String := "https://api.goto.com/call-reports/v1/reports/user-activity"

/-- The statement `if (v !== undefined) gotoParams.k = v`. -/
def optionalParam (k : String) (v : JsVal) : List (String × JsVal) :=
  match v with
  | JsVal.undefined => []
  | _ => [(k, v)]

/-- The object `gotoParams` built from the query. -/
def gotoParams (q : Query) : List (String × JsVal) :=
  [("startTime", q.get "startTime"), ("endTime", q.get "endTime"),
   ("organizationId", q.get "organizationId")]
    ++ optionalParam "page" (q.get "page")
    ++ optionalParam "pageSize" (q.get "pageSize")
    ++ optionalParam "q" (q.get "q")
    ++ optionalParam "userIds" (q.get "userIds")
    ++ optionalParam "sort" (q.get "sort")

/-- The logging expression `accessToken.slice(0, 20) + '...'`: the message of
the TypeError it throws, if it throws.  Only a string and an array have a
callable `slice`; the slice of an array is then converted to a string. -/
def sliceLogError (accessToken : JsVal) : Option String :=
  match accessToken with
  | JsVal.str _ => none
  | JsVal.arr xs =>
    match JsVal.toStr (JsVal.arr (xs.take 20)) with
    | some _ => none
    | none => some "Cannot convert object to primitive value"
  | _ => some "accessToken.slice is not a function"

/-- The `catch` block of the proxy route. -/
def proxyFailure (message : String) (response : Option (Nat × JsVal)) : Response :=
  match response with
  | some (status, data) =>
    { status := if status = 0 then 500 else status,
      body := Body.json (JsVal.obj [("error", JsVal.str message), ("details", data)]) }
  | none =>
    { status := 500,
      body := Body.json (JsVal.obj [("error", JsVal.str message), ("details", JsVal.undefined)]) }

/-- The route `GET /api/user-activity`.  `axiosGet url authorization params` is
what the reporting API does with the call. -/
def userActivityRoute (axiosGet : String → String → List (String × JsVal) → AxiosResult)
    (s : State) (q : Query) : State × Response × List Effect :=
  let accessToken := JsVal.or (q.get "accessToken") s.latestAccessToken
  if !accessToken.truthy then
    (s, { status := 401,
          body := Body.json
            (JsVal.obj [("error", JsVal.str "No access token. Please authenticate first.")]) }, [])
  else
    match sliceLogError accessToken with
    | some message => (s, proxyFailure message none, [])
    | none =>
      match JsVal.toStr accessToken with
      | none => (s, proxyFailure "Cannot convert object to primitive value" none, [])
      | some tokenText =>
        let authorization := "Bearer " ++ tokenText
        let call := Effect.httpGet gotoUrl authorization (gotoParams q)
        match axiosGet gotoUrl authorization (gotoParams q) with
        | AxiosResult.response _ data =>
          match data with
          | JsVal.undefined =>
            (s, proxyFailure "Cannot read properties of undefined (reading 'slice')" none, [call])
          | _ => (s, { status := 200, body := Body.json data }, [call])
        | AxiosResult.failure message response => (s, proxyFailure message response, [call])

/-! ## Names used in the statements -/

/-- The query names the proxy route forwards. -/
def allowList : List String :=
  ["startTime", "endTime", "organizationId", "page", "pageSize", "q", "userIds", "sort"]

/-- The error envelope of the proxy route. -/
def errorEnvelope (message : String) (details : JsVal) : Body :=
  Body.json (JsVal.obj [("error", JsVal.str message), ("details", details)])

/-- A client whose provider refuses every code with the message `invalid_grant`. -/
def refusingClient : OAuthClient :=
  { authorizeURL := fun _ _ state => "https://auth.example/authorize?state=" ++ state
    getToken := fun _ _ _ => .error "invalid_grant" }

/-- A client whose provider answers every code with the token object `token`. -/
def grantingClient (token : List (String × JsVal)) : OAuthClient :=
  { authorizeURL := fun _ _ state => "https://auth.example/authorize?state=" ++ state
    getToken := fun _ _ _ => .ok token }

/-- The refresh token of a pair as a JavaScript value: `undefined` when absent. -/
def refreshValue : Option String → JsVal
  | some r => JsVal.str r
  | none => JsVal.undefined

/-- The object `saveTokens` is given for a pair. -/
def pairObject (a : String) (r : Option String) : JsVal :=
  JsVal.obj [("accessToken", JsVal.str a), ("refreshToken", refreshValue r)]

/-- The object `JSON.parse` builds from the file of a pair: an absent refresh
token has no member. -/
def pairParsed (a : String) (r : Option String) : JsVal :=
  match r with
  | some x => JsVal.obj [("accessToken", JsVal.str a), ("refreshToken", JsVal.str x)]
  | none => JsVal.obj [("accessToken", JsVal.str a)]

/-- The text of `tokens.json` for a pair. -/
def pairText (a : String) (r : Option String) : String :=
  match r with
  | some x =>
    String.mk (lbrace :: '\n' :: ' ' :: ' ' :: (quoteJSONString "accessToken" ++ ':' :: ' ' ::
      (quoteJSONString a ++ ',' :: '\n' :: ' ' :: ' ' :: (quoteJSONString "refreshToken"
        ++ ':' :: ' ' :: (quoteJSONString x ++ ['\n', rbrace])))))
  | none =>
    String.mk (lbrace :: '\n' :: ' ' :: ' ' :: (quoteJSONString "accessToken" ++ ':' :: ' ' ::
      (quoteJSONString a ++ ['\n', rbrace])))

/-- The answer of the proxy route once the call to the reporting API is made. -/
def proxyAnswer (result : AxiosResult) : Response :=
  match result with
  | AxiosResult.response _ JsVal.undefined =>
    proxyFailure "Cannot read properties of undefined (reading 'slice')" none
  | AxiosResult.response _ data => { status := 200, body := Body.json data }
  | AxiosResult.failure message response => proxyFailure message response


/-! ## Lemmas: the string codec -/

theorem hex4_hexDigit : ∀ n, n < 32 →
    hex4 '0' '0' (hexDigit (n / 16)) (hexDigit (n % 16)) = some n := by
  decide

theorem char_eq_of_toNat {c : Char} {n : Nat} (h : c.toNat = n) : c = Char.ofNat n := by
  rw [← h, Char.ofNat_toNat]



theorem scanString_cons (c : Char) (cs : List Char) :
    scanString (c :: cs) =
      if c = dquote then Except.ok ([], cs)
      else if c = bslash then
        match cs with
        | [] => Except.error ParseError.malformed
        | e :: cs1 =>
          if e = dquote then consUnit 34 (scanString cs1)
          else if e = bslash then consUnit 92 (scanString cs1)
          else if e = '/' then consUnit 47 (scanString cs1)
          else if e = 'b' then consUnit 8 (scanString cs1)
          else if e = 'f' then consUnit 12 (scanString cs1)
          else if e = 'n' then consUnit 10 (scanString cs1)
          else if e = 'r' then consUnit 13 (scanString cs1)
          else if e = 't' then consUnit 9 (scanString cs1)
          else if e = 'u' then
            match cs1 with
            | h1 :: h2 :: h3 :: h4 :: cs2 =>
              match hex4 h1 h2 h3 h4 with
              | some u => consUnit u (scanString cs2)
              | none => Except.error ParseError.malformed
            | _ => Except.error ParseError.malformed
          else Except.error ParseError.malformed
      else if c.toNat < 32 then Except.error ParseError.malformed
      else consUnit c.toNat (scanString cs) := by
  conv_lhs => rw [scanString.eq_def]

theorem scanString_quoteChar (c : Char) (tail : List Char) :
    scanString (quoteChar c ++ tail) = consUnit c.toNat (scanString tail) := by
  unfold quoteChar
  split
  · next h => subst h; simp [scanString_cons, dquote, bslash]
  split
  · next h => subst h; simp [scanString_cons, dquote, bslash]
  split
  · next h => rw [char_eq_of_toNat h]; simp [scanString_cons, dquote, bslash]
  split
  · next h => rw [char_eq_of_toNat h]; simp [scanString_cons, dquote, bslash]
  split
  · next h => rw [char_eq_of_toNat h]; simp [scanString_cons, dquote, bslash]
  split
  · next h => rw [char_eq_of_toNat h]; simp [scanString_cons, dquote, bslash]
  split
  · next h => rw [char_eq_of_toNat h]; simp [scanString_cons, dquote, bslash]
  split
  · next h =>
    have := hex4_hexDigit c.toNat h
    simp [scanString_cons, this, dquote, bslash]
  · next h1 h2 _ _ _ _ _ h3 =>
    simp [scanString_cons, h1, h2, h3]

theorem scanString_quoteChars (cs rest : List Char) :
    scanString (quoteChars cs ++ dquote :: rest) = .ok (cs.map Char.toNat, rest) := by
  induction cs with
  | nil => simp [quoteChars, scanString_cons]
  | cons c cs ih =>
    simp only [quoteChars, List.append_assoc, scanString_quoteChar, ih, consUnit, List.map_cons]

theorem char_not_surrogate (c : Char) : ¬ (0xD800 ≤ c.toNat ∧ c.toNat ≤ 0xDFFF) := by
  have h := c.valid
  simp only [UInt32.isValidChar, Nat.isValidChar] at h
  simp only [Char.toNat]
  omega

theorem decodeUnits_toNat (cs : List Char) :
    decodeUnits (cs.map Char.toNat) = .ok cs := by
  induction cs with
  | nil => simp [decodeUnits]
  | cons c cs ih =>
    have hc := char_not_surrogate c
    cases cs with
    | nil =>
      simp only [List.map_cons, List.map_nil, decodeUnits]
      rw [if_neg hc, Char.ofNat_toNat]
    | cons d ds =>
      simp only [List.map_cons] at ih ⊢
      rw [decodeUnits]
      rw [if_neg (fun h => hc ⟨h.1, by omega⟩), if_neg (fun h => hc ⟨by omega, h.2⟩), ih,
        Char.ofNat_toNat]

theorem parseString_quoted (s : String) (rest : List Char) :
    parseString (quoteChars s.data ++ dquote :: rest) = .ok (s, rest) := by
  simp only [parseString, scanString_quoteChars, decodeUnits_toNat]


theorem skipWs_dquote (cs : List Char) : skipWs (dquote :: cs) = dquote :: cs := by
  simp [skipWs, isWs, dquote]

theorem parseValue_string (fuel : Nat) (s : String) (rest : List Char) :
    parseValue (fuel + 1) (quoteJSONString s ++ rest) = .ok (JsVal.str s, rest) := by
  rw [parseValue.eq_def]
  simp only [quoteJSONString, List.cons_append, List.append_assoc, List.nil_append]
  simp only [parseString_quoted, show ¬ dquote = lbrace from by decide,
    show ¬ dquote = lbracket from by decide, if_true, if_false]

/-- One member, `"k": "v"`, of a pretty-printed object, read back. -/
theorem parseMembers_string_member (fuel : Nat) (k v : String) (rest : List Char)
    (acc : List (String × JsVal)) :
    parseMembers (fuel + 2)
        (quoteJSONString k ++ ':' :: ' ' :: (quoteJSONString v ++ rest)) acc
      = match skipWs rest with
        | d :: rest3 =>
          if d = ',' then parseMembers (fuel + 1) (skipWs rest3) (setProp k (JsVal.str v) acc)
          else if d = rbrace then .ok (JsVal.obj (setProp k (JsVal.str v) acc), rest3)
          else .error .malformed
        | [] => .error .malformed := by
  rw [parseMembers.eq_def]
  have h1 : skipWs (':' :: ' ' :: (quoteJSONString v ++ rest))
      = ':' :: ' ' :: (quoteJSONString v ++ rest) := by
    simp [skipWs, isWs]
  have h2 : skipWs (' ' :: (quoteJSONString v ++ rest)) = quoteJSONString v ++ rest := by
    simp [skipWs, isWs, quoteJSONString, dquote]
  conv_lhs =>
    simp only [quoteJSONString, List.cons_append, List.append_assoc, List.nil_append]
  simp only [if_true, parseString_quoted]
  have h3 : dquote :: (quoteChars v.data ++ dquote :: rest) = quoteJSONString v ++ rest := by
    simp [quoteJSONString]
  rw [h3, h1]
  simp only [if_true, h2, parseValue_string]

/-- The text `saveTokens` writes for a pair of two strings. -/
theorem serValue_pair_both (a r : String) :
    serValue [' ', ' '] []
        (JsVal.obj [("accessToken", JsVal.str a), ("refreshToken", JsVal.str r)])
      = some (lbrace :: '\n' :: ' ' :: ' ' :: (quoteJSONString "accessToken" ++ ':' :: ' ' ::
          (quoteJSONString a ++ ',' :: '\n' :: ' ' :: ' ' :: (quoteJSONString "refreshToken"
            ++ ':' :: ' ' :: (quoteJSONString r ++ ['\n', rbrace]))))) := by
  simp [serValue, serMembers, wrapParts, joinParts]

/-- The text `saveTokens` writes for a pair without refresh token. -/
theorem serValue_pair_one (a : String) :
    serValue [' ', ' '] []
        (JsVal.obj [("accessToken", JsVal.str a), ("refreshToken", JsVal.undefined)])
      = some (lbrace :: '\n' :: ' ' :: ' ' :: (quoteJSONString "accessToken" ++ ':' :: ' ' ::
          (quoteJSONString a ++ ['\n', rbrace]))) := by
  simp [serValue, serMembers, wrapParts, joinParts]

theorem jsonParse_mk (l : List Char) (v : JsVal) (rest : List Char)
    (h : ∀ n, parseValue (n + 4) (skipWs l) = .ok (v, rest)) (hl : l ≠ [])
    (hrest : skipWs rest = []) :
    jsonParse (String.mk l) = .ok v := by
  unfold jsonParse
  have hlen : 2 * (String.mk l).length + 2 = (2 * l.length - 2) + 4 := by
    have : 0 < l.length := List.length_pos.mpr hl
    simp only [String.length]
    omega
  rw [hlen]
  simp only [h, hrest, List.isEmpty_nil, if_true]

theorem parseValue_pair_both (n : Nat) (a r : String) :
    parseValue (n + 4) (lbrace :: '\n' :: ' ' :: ' ' :: (quoteJSONString "accessToken" ++ ':' :: ' ' ::
          (quoteJSONString a ++ ',' :: '\n' :: ' ' :: ' ' :: (quoteJSONString "refreshToken"
            ++ ':' :: ' ' :: (quoteJSONString r ++ ['\n', rbrace])))))
      = .ok (JsVal.obj [("accessToken", JsVal.str a), ("refreshToken", JsVal.str r)], []) := by
  rw [parseValue.eq_def]
  have hq : ∀ (s : String) (t : List Char), quoteJSONString s ++ t
      = dquote :: (quoteChars s.data ++ dquote :: t) := by
    intro s t; simp [quoteJSONString]
  have hws : ∀ (s : String) (t : List Char),
      skipWs ('\n' :: ' ' :: ' ' :: (quoteJSONString s ++ t)) = quoteJSONString s ++ t := by
    intro s t; simp [skipWs, isWs, quoteJSONString, dquote]
  simp only [if_true, hws]
  rw [hq "accessToken"]
  simp only [show ¬ dquote = rbrace from by decide, if_false]
  rw [← hq "accessToken", parseMembers_string_member]
  have h1 : ∀ t, skipWs (',' :: t) = ',' :: t := by intro t; simp [skipWs, isWs]
  simp only [h1, if_true, hws, parseMembers_string_member]
  have h2 : skipWs ['\n', rbrace] = [rbrace] := by simp [skipWs, isWs, rbrace]
  simp only [h2, show ¬ rbrace = ',' from by decide, if_false, if_true, setProp]
  simp

theorem parseValue_pair_one (n : Nat) (a : String) :
    parseValue (n + 4) (lbrace :: '\n' :: ' ' :: ' ' :: (quoteJSONString "accessToken" ++ ':' :: ' ' ::
          (quoteJSONString a ++ ['\n', rbrace])))
      = .ok (JsVal.obj [("accessToken", JsVal.str a)], []) := by
  rw [parseValue.eq_def]
  have hq : ∀ (s : String) (t : List Char), quoteJSONString s ++ t
      = dquote :: (quoteChars s.data ++ dquote :: t) := by
    intro s t; simp [quoteJSONString]
  have hws : ∀ (s : String) (t : List Char),
      skipWs ('\n' :: ' ' :: ' ' :: (quoteJSONString s ++ t)) = quoteJSONString s ++ t := by
    intro s t; simp [skipWs, isWs, quoteJSONString, dquote]
  simp only [if_true, hws]
  rw [hq "accessToken"]
  simp only [show ¬ dquote = rbrace from by decide, if_false]
  rw [← hq "accessToken", parseMembers_string_member]
  have h2 : skipWs ['\n', rbrace] = [rbrace] := by simp [skipWs, isWs, rbrace]
  simp only [h2, show ¬ rbrace = ',' from by decide, if_false, if_true, setProp]

theorem saveTokens_pair (a : String) (r : Option String) :
    saveTokens (pairObject a r) = some (pairText a r) := by
  cases r with
  | some x =>
    simp only [saveTokens, jsonStringify, pairObject, refreshValue, List.replicate,
      serValue_pair_both, Option.map_some', pairText]
  | none =>
    simp only [saveTokens, jsonStringify, pairObject, refreshValue, List.replicate,
      serValue_pair_one, Option.map_some', pairText]

theorem jsonParse_pairText (a : String) (r : Option String) :
    jsonParse (pairText a r) = .ok (pairParsed a r) := by
  have hb : ∀ t, skipWs (lbrace :: t) = lbrace :: t := by
    intro t; simp [skipWs, isWs, lbrace]
  cases r with
  | some x =>
    exact jsonParse_mk _ _ [] (fun n => by rw [hb]; exact parseValue_pair_both n a x)
      (by simp) (by simp [skipWs])
  | none =>
    exact jsonParse_mk _ _ [] (fun n => by rw [hb]; exact parseValue_pair_one n a)
      (by simp) (by simp [skipWs])

theorem loadTokens_pairText (a : String) (r : Option String) :
    loadTokens (some (pairText a r)) = .ok (pairParsed a r) := by
  simp only [loadTokens, jsonParse_pairText]

theorem pairParsed_accessToken (a : String) (r : Option String) :
    (pairParsed a r).getProp "accessToken" = JsVal.str a := by
  cases r <;> simp [pairParsed, JsVal.getProp, JsVal.lookup]

theorem pairParsed_refreshToken (a : String) (r : Option String) :
    (pairParsed a r).getProp "refreshToken" = refreshValue r := by
  cases r <;> simp [pairParsed, JsVal.getProp, JsVal.lookup, refreshValue]

theorem startup_pairText (a : String) (r : Option String) :
    startup (some (pairText a r))
      = .ok { expectedState := JsVal.null, latestAccessToken := JsVal.str a,
              latestRefreshToken := refreshValue r, tokenFile := some (pairText a r) } := by
  have h := loadTokens_pairText a r
  have ha := pairParsed_accessToken a r
  have hr := pairParsed_refreshToken a r
  cases r with
  | some x =>
    simp only [pairParsed] at h ha hr
    simp only [startup, h, ha, hr]
  | none =>
    simp only [pairParsed] at h ha hr
    simp only [startup, h, ha, hr]

/-! ## The callback route -/

theorem query_get_ne_null (q : Query) (k : String) :
    strictEq (q.get k) JsVal.null = false := by
  unfold Query.get
  cases Query.find k q with
  | none => rfl
  | some v => cases v <;> rfl

/-- The route `GET /auth` stores the state it generated as the expected state and
leaves the tokens and the token file alone. -/
theorem authRoute_stores_state (client : OAuthClient) (redirectUri : JsVal)
    (bytes : List Nat) (s : State) :
    (authRoute client redirectUri bytes s).1
      = { s with expectedState := JsVal.str (generateState bytes) } := rfl

/-- C1: a callback whose query `state` is not strictly equal to the stored
expected state is answered 403 `Invalid state`; the handler makes no call (no
token request, no file write) and leaves the expected state, both tokens and
the token file as they were. -/
theorem callback_rejects_state_mismatch (client : OAuthClient) (redirectUri : JsVal)
    (s : State) (q : Query)
    (h : strictNe (q.get "state") s.expectedState = true) :
    callbackRoute client redirectUri s q
      = (s, { status := 403, body := Body.text "Invalid state" }, []) := by
  simp only [callbackRoute, h, if_true]

theorem callback_rejects_state_mismatch_witness :
    strictNe (Query.get [("state", QVal.str "abd"), ("code", QVal.str "c0de")] "state")
        (JsVal.str "abc") = true
    ∧ callbackRoute refusingClient JsVal.undefined
        { expectedState := JsVal.str "abc", latestAccessToken := JsVal.str "old",
          latestRefreshToken := JsVal.null, tokenFile := none }
        [("state", QVal.str "abd"), ("code", QVal.str "c0de")]
      = ({ expectedState := JsVal.str "abc", latestAccessToken := JsVal.str "old",
           latestRefreshToken := JsVal.null, tokenFile := none },
         { status := 403, body := Body.text "Invalid state" }, []) :=
  ⟨by decide, callback_rejects_state_mismatch _ _ _ _ (by decide)⟩

/-- C10: while the expected state is `null` (no `GET /auth` handled yet, also
right after a start that loaded tokens from the file) every callback is answered
403 `Invalid state`, whatever its query, with no call made and the state
unchanged; a query without `state` reads `undefined`, which is not strictly
equal to `null`. -/
theorem callback_before_auth_rejected (client : OAuthClient) (redirectUri : JsVal)
    (access refresh : JsVal) (file : Option String) (q : Query) :
    callbackRoute client redirectUri
        { expectedState := JsVal.null, latestAccessToken := access,
          latestRefreshToken := refresh, tokenFile := file } q
      = ({ expectedState := JsVal.null, latestAccessToken := access,
           latestRefreshToken := refresh, tokenFile := file },
         { status := 403, body := Body.text "Invalid state" }, [])
    ∧ (∀ s, startup file = .ok s → s.expectedState = JsVal.null)
    ∧ strictNe JsVal.undefined JsVal.null = true := by
  refine ⟨?_, ?_, rfl⟩
  · simp only [callbackRoute, strictNe, query_get_ne_null, Bool.not_false, if_true]
  · intro s hs
    unfold startup at hs
    split at hs
    · cases hs
    · cases hs
    · cases hs
    · cases hs; rfl

/-- C9: when the state matches and the provider refuses the exchange with the
message `m`, `getToken` fails with `Access Token Error: ` followed by `m`, and
the handler answers 500 with that text as body; the only call made is the token
request, no file is written, and the tokens in memory and the token file are as
they were. -/
theorem callback_exchange_failure (client : OAuthClient) (redirectUri : JsVal)
    (s : State) (q : Query) (m : String)
    (hstate : strictNe (q.get "state") s.expectedState = false)
    (hfail : client.getToken (q.get "code") redirectUri SCOPE = .error m) :
    getToken client redirectUri (q.get "code") SCOPE = .error ("Access Token Error: " ++ m)
    ∧ callbackRoute client redirectUri s q
      = (s, { status := 500, body := Body.text ("Access Token Error: " ++ m) },
         [Effect.tokenRequest (q.get "code") redirectUri SCOPE]) := by
  have hg : getToken client redirectUri (q.get "code") SCOPE
      = .error ("Access Token Error: " ++ m) := by
    simp only [getToken, hfail]
  refine ⟨hg, ?_⟩
  simp only [callbackRoute, hstate, hg]
  rfl

theorem callback_exchange_failure_witness :
    getToken refusingClient JsVal.undefined
        (Query.get [("state", QVal.str "abc"), ("code", QVal.str "c0de")] "code") SCOPE
      = .error ("Access Token Error: " ++ "invalid_grant")
    ∧ callbackRoute refusingClient JsVal.undefined
        { expectedState := JsVal.str "abc", latestAccessToken := JsVal.str "old",
          latestRefreshToken := JsVal.null, tokenFile := some "kept" }
        [("state", QVal.str "abc"), ("code", QVal.str "c0de")]
      = ({ expectedState := JsVal.str "abc", latestAccessToken := JsVal.str "old",
           latestRefreshToken := JsVal.null, tokenFile := some "kept" },
         { status := 500, body := Body.text ("Access Token Error: " ++ "invalid_grant") },
         [Effect.tokenRequest
            (Query.get [("state", QVal.str "abc"), ("code", QVal.str "c0de")] "code")
            JsVal.undefined SCOPE]) :=
  callback_exchange_failure refusingClient JsVal.undefined _ _ "invalid_grant"
    (by decide) rfl

/-! ## The proxy route -/

/-- A call recorded by the proxy route is the call to `gotoUrl` with the header
built from the chosen token and the params built from the query, and the
route's answer is decided by what the reporting API did with that call. -/
theorem userActivity_call (axiosGet : String → String → List (String × JsVal) → AxiosResult)
    (s : State) (q : Query) (url auth : String) (params : List (String × JsVal))
    (h : Effect.httpGet url auth params ∈ (userActivityRoute axiosGet s q).2.2) :
    ∃ tokenText,
      (JsVal.or (q.get "accessToken") s.latestAccessToken).truthy = true
      ∧ JsVal.toStr (JsVal.or (q.get "accessToken") s.latestAccessToken) = some tokenText
      ∧ url = gotoUrl ∧ auth = "Bearer " ++ tokenText ∧ params = gotoParams q
      ∧ (userActivityRoute axiosGet s q).2.1 = proxyAnswer (axiosGet url auth params) := by
  unfold userActivityRoute at h ⊢
  simp only at h ⊢
  split at h
  · simp at h
  · next htr =>
    split at h
    · simp at h
    · split at h
      · simp at h
      · next tokenText htext =>
        refine ⟨tokenText, by simpa using htr, htext, ?_⟩
        have hcall : url = gotoUrl ∧ auth = "Bearer " ++ tokenText ∧ params = gotoParams q := by
          split at h
          · split at h <;> simpa using h
          · simpa using h
        obtain ⟨h1, h2, h3⟩ := hcall
        subst h1 h2 h3
        refine ⟨rfl, rfl, rfl, ?_⟩
        simp only [htr, htext]
        unfold proxyAnswer
        cases axiosGet gotoUrl ("Bearer " ++ tokenText) (gotoParams q) with
        | response status data => cases data <;> simp
        | failure message response => simp

/-- C3: with no access token in memory (`null` as at module load, or
`undefined` as after a start without token file) and no `accessToken` in the
query, the proxy route answers 401 and makes no call at all. -/
theorem user_activity_without_token
    (axiosGet : String → String → List (String × JsVal) → AxiosResult) (s : State) (q : Query)
    (hmem : s.latestAccessToken = JsVal.null ∨ s.latestAccessToken = JsVal.undefined)
    (hquery : Query.find "accessToken" q = none) :
    userActivityRoute axiosGet s q
      = (s, { status := 401,
              body := Body.json (JsVal.obj
                [("error", JsVal.str "No access token. Please authenticate first.")]) }, []) := by
  have hq : q.get "accessToken" = JsVal.undefined := by simp only [Query.get, hquery]
  unfold userActivityRoute
  rcases hmem with h | h <;> simp [hq, h, JsVal.or, JsVal.truthy]

theorem user_activity_without_token_witness :
    userActivityRoute (fun _ _ _ => AxiosResult.response 200 (JsVal.obj []))
        { expectedState := JsVal.null, latestAccessToken := JsVal.undefined,
          latestRefreshToken := JsVal.undefined, tokenFile := none }
        [("startTime", QVal.str "2024-01-01T00:00:00Z")]
      = ({ expectedState := JsVal.null, latestAccessToken := JsVal.undefined,
           latestRefreshToken := JsVal.undefined, tokenFile := none },
         { status := 401,
           body := Body.json (JsVal.obj
             [("error", JsVal.str "No access token. Please authenticate first.")]) }, []) :=
  user_activity_without_token _ _ _ (Or.inr rfl) rfl

/-- C6: when the call to the reporting API fails with message `m` and the
reporting API replied with status `status` and body `d`, the proxy route answers
with that status and the envelope `error: m, details: d`; when the failure
carries no reply it answers 500, the envelope holding `m` and no details. -/
theorem user_activity_failure_relayed
    (axiosGet : String → String → List (String × JsVal) → AxiosResult) (s : State) (q : Query)
    (url auth : String) (params : List (String × JsVal)) (m : String)
    (reply : Option (Nat × JsVal))
    (hcall : Effect.httpGet url auth params ∈ (userActivityRoute axiosGet s q).2.2)
    (hfail : axiosGet url auth params = AxiosResult.failure m reply) :
    (∀ status d, reply = some (status, d) → 100 ≤ status →
      (userActivityRoute axiosGet s q).2.1 = { status := status, body := errorEnvelope m d })
    ∧ (reply = none →
      (userActivityRoute axiosGet s q).2.1
        = { status := 500, body := errorEnvelope m JsVal.undefined }) := by
  obtain ⟨_, _, _, _, _, _, hans⟩ := userActivity_call axiosGet s q url auth params hcall
  rw [hans, hfail]
  constructor
  · intro status d hreply hstatus
    subst hreply
    have hne : status ≠ 0 := by omega
    simp [proxyAnswer, proxyFailure, errorEnvelope, hne]
  · intro hreply
    subst hreply
    rfl

theorem user_activity_failure_relayed_witness :
    (userActivityRoute
        (fun _ _ _ => AxiosResult.failure "Request failed with status code 503"
          (some (503, JsVal.obj [("reason", JsVal.str "maintenance")])))
        { expectedState := JsVal.null, latestAccessToken := JsVal.str "tok",
          latestRefreshToken := JsVal.null, tokenFile := none }
        [("startTime", QVal.str "2024-01-01T00:00:00Z")]).2.1
      = { status := 503,
          body := errorEnvelope "Request failed with status code 503"
            (JsVal.obj [("reason", JsVal.str "maintenance")]) } :=
  (user_activity_failure_relayed
      (fun _ _ _ => AxiosResult.failure "Request failed with status code 503"
        (some (503, JsVal.obj [("reason", JsVal.str "maintenance")])))
      { expectedState := JsVal.null, latestAccessToken := JsVal.str "tok",
        latestRefreshToken := JsVal.null, tokenFile := none }
      [("startTime", QVal.str "2024-01-01T00:00:00Z")]
      gotoUrl "Bearer tok" (gotoParams [("startTime", QVal.str "2024-01-01T00:00:00Z")])
      "Request failed with status code 503"
      (some (503, JsVal.obj [("reason", JsVal.str "maintenance")]))
      (List.Mem.head _) rfl).1 503 _ rfl (by decide)

/-- C8, as amended: when the call to the reporting API succeeds with status
`status` and a JSON body `b`, the proxy route answers with body `b` and status
200, whatever `status` was. -/
theorem user_activity_success_relayed
    (axiosGet : String → String → List (String × JsVal) → AxiosResult) (s : State) (q : Query)
    (url auth : String) (params : List (String × JsVal)) (status : Nat) (b : JsVal)
    (hcall : Effect.httpGet url auth params ∈ (userActivityRoute axiosGet s q).2.2)
    (hok : axiosGet url auth params = AxiosResult.response status b)
    (hjson : b ≠ JsVal.undefined) :
    (userActivityRoute axiosGet s q).2.1 = { status := 200, body := Body.json b } := by
  obtain ⟨_, _, _, _, _, _, hans⟩ := userActivity_call axiosGet s q url auth params hcall
  rw [hans, hok]
  cases b <;> first | rfl | exact absurd rfl hjson

theorem user_activity_success_relayed_witness :
    (userActivityRoute
        (fun _ _ _ => AxiosResult.response 201 (JsVal.obj [("items", JsVal.arr [])]))
        { expectedState := JsVal.null, latestAccessToken := JsVal.str "tok",
          latestRefreshToken := JsVal.null, tokenFile := none }
        [("startTime", QVal.str "2024-01-01T00:00:00Z")]).2.1
      = { status := 200, body := Body.json (JsVal.obj [("items", JsVal.arr [])]) } :=
  user_activity_success_relayed
    (fun _ _ _ => AxiosResult.response 201 (JsVal.obj [("items", JsVal.arr [])]))
    { expectedState := JsVal.null, latestAccessToken := JsVal.str "tok",
      latestRefreshToken := JsVal.null, tokenFile := none }
    [("startTime", QVal.str "2024-01-01T00:00:00Z")]
    gotoUrl "Bearer tok" (gotoParams [("startTime", QVal.str "2024-01-01T00:00:00Z")])
    201 (JsVal.obj [("items", JsVal.arr [])])
    (List.Mem.head _) rfl (by intro h; cases h)

/-- C8 fails as stated: the stored token is `tok`, the reporting API answers the
call with status 201 and the body `items: []`, and the proxy route answers with
status 200, not 201.  So the claim, read over every successful call with a 2xx
status and a JSON body, is false. -/
theorem user_activity_success_status_counterexample :
    (userActivityRoute
        (fun _ _ _ => AxiosResult.response 201 (JsVal.obj [("items", JsVal.arr [])]))
        { expectedState := JsVal.null, latestAccessToken := JsVal.str "tok",
          latestRefreshToken := JsVal.null, tokenFile := none } []).2.1.status = 200
    ∧ ¬ (∀ (axiosGet : String → String → List (String × JsVal) → AxiosResult) (s : State)
          (q : Query) (url auth : String) (params : List (String × JsVal)) (status : Nat)
          (b : JsVal),
          Effect.httpGet url auth params ∈ (userActivityRoute axiosGet s q).2.2 →
          axiosGet url auth params = AxiosResult.response status b →
          200 ≤ status → status < 300 → b ≠ JsVal.undefined →
          (userActivityRoute axiosGet s q).2.1 = { status := status, body := Body.json b }) := by
  refine ⟨rfl, fun hall => ?_⟩
  have h := hall
    (fun _ _ _ => AxiosResult.response 201 (JsVal.obj [("items", JsVal.arr [])]))
    { expectedState := JsVal.null, latestAccessToken := JsVal.str "tok",
      latestRefreshToken := JsVal.null, tokenFile := none } []
    gotoUrl "Bearer tok" (gotoParams []) 201 (JsVal.obj [("items", JsVal.arr [])])
    (List.Mem.head _) rfl (by decide) (by decide) (by intro h; cases h)
  have hs := congrArg Response.status h
  exact absurd hs (by decide)

/-- C5, as amended: the Authorization header of the call is `Bearer ` followed by
the query's `accessToken` when that is a non-empty string, and by the stored
access token when the query has no `accessToken` or an empty one; in each case
the token text is copied unchanged.  In general the header carries the string
form of `req.query.accessToken || latestAccessToken`. -/
theorem user_activity_bearer_header
    (axiosGet : String → String → List (String × JsVal) → AxiosResult) (s : State) (q : Query)
    (url auth : String) (params : List (String × JsVal))
    (hcall : Effect.httpGet url auth params ∈ (userActivityRoute axiosGet s q).2.2) :
    (∀ t, q.get "accessToken" = JsVal.str t → t ≠ "" → auth = "Bearer " ++ t)
    ∧ (∀ t, q.get "accessToken" = JsVal.undefined ∨ q.get "accessToken" = JsVal.str "" →
        s.latestAccessToken = JsVal.str t → auth = "Bearer " ++ t)
    ∧ (∃ text, JsVal.toStr (JsVal.or (q.get "accessToken") s.latestAccessToken) = some text
        ∧ auth = "Bearer " ++ text) := by
  obtain ⟨text, _, htext, _, hauth, _, _⟩ := userActivity_call axiosGet s q url auth params hcall
  refine ⟨?_, ?_, text, htext, hauth⟩
  · intro t hq ht
    have : JsVal.or (q.get "accessToken") s.latestAccessToken = JsVal.str t := by
      simp [JsVal.or, hq, JsVal.truthy, ht]
    rw [this] at htext
    simp only [JsVal.toStr, Option.some.injEq] at htext
    rw [hauth, htext]
  · intro t hq hs
    have : JsVal.or (q.get "accessToken") s.latestAccessToken = JsVal.str t := by
      rcases hq with hq | hq <;> simp [JsVal.or, hq, JsVal.truthy, hs]
    rw [this] at htext
    simp only [JsVal.toStr, Option.some.injEq] at htext
    rw [hauth, htext]

theorem user_activity_bearer_header_witness :
    Effect.httpGet gotoUrl "Bearer fromQuery" (gotoParams [("accessToken", QVal.str "fromQuery")])
        ∈ (userActivityRoute (fun _ _ _ => AxiosResult.response 200 (JsVal.obj []))
            { expectedState := JsVal.null, latestAccessToken := JsVal.str "stored",
              latestRefreshToken := JsVal.null, tokenFile := none }
            [("accessToken", QVal.str "fromQuery")]).2.2
    ∧ "Bearer fromQuery" = "Bearer " ++ "fromQuery" :=
  ⟨List.Mem.head _,
   (user_activity_bearer_header
      (fun _ _ _ => AxiosResult.response 200 (JsVal.obj []))
      { expectedState := JsVal.null, latestAccessToken := JsVal.str "stored",
        latestRefreshToken := JsVal.null, tokenFile := none }
      [("accessToken", QVal.str "fromQuery")]
      gotoUrl "Bearer fromQuery" (gotoParams [("accessToken", QVal.str "fromQuery")])
      (List.Mem.head _)).1 "fromQuery" rfl (by decide)⟩

/-- C5 fails as stated: the query provides `accessToken` with the empty string
as its value, the stored token is `stored`; the call is made and its
Authorization header is `Bearer stored`, not `Bearer ` followed by the value the
query provides. -/
theorem user_activity_bearer_header_counterexample :
    Query.find "accessToken" [("accessToken", QVal.str "")] = some (QVal.str "")
    ∧ (userActivityRoute (fun _ _ _ => AxiosResult.response 200 (JsVal.obj []))
        { expectedState := JsVal.null, latestAccessToken := JsVal.str "stored",
          latestRefreshToken := JsVal.null, tokenFile := none }
        [("accessToken", QVal.str "")]).2.2
      = [Effect.httpGet gotoUrl "Bearer stored" (gotoParams [("accessToken", QVal.str "")])]
    ∧ "Bearer stored" ≠ "Bearer " ++ "" := by
  refine ⟨rfl, rfl, by decide⟩

theorem lookup_append (k : String) (xs ys : List (String × JsVal)) :
    JsVal.lookup k (xs ++ ys)
      = match JsVal.lookup k xs with
        | some v => some v
        | none => JsVal.lookup k ys := by
  induction xs with
  | nil => rfl
  | cons x xs ih =>
    obtain ⟨k', v⟩ := x
    simp only [List.cons_append, JsVal.lookup]
    split
    · rfl
    · exact ih

theorem query_get_of_find {q : Query} {k : String} {v : QVal} (h : Query.find k q = some v) :
    q.get k = v.toJs := by
  simp only [Query.get, h]

theorem toJs_ne_undefined (v : QVal) : v.toJs ≠ JsVal.undefined := by
  cases v <;> simp [QVal.toJs]

theorem optionalParam_of_find {q : Query} {k : String} {v : QVal}
    (h : Query.find k q = some v) (name : String) :
    optionalParam name (q.get k) = [(name, v.toJs)] := by
  rw [query_get_of_find h]
  cases v <;> simp [optionalParam, QVal.toJs]

theorem keys_optionalParam (name : String) (v : JsVal) :
    ∀ k ∈ JsVal.keys (optionalParam name v), k = name := by
  intro k hk
  cases v <;> simp_all [optionalParam, JsVal.keys]

theorem lookup_optionalParam_ne {name k : String} (h : name ≠ k) (v : JsVal) :
    JsVal.lookup k (optionalParam name v) = none := by
  cases v <;> simp [optionalParam, JsVal.lookup, h]

theorem gotoParams_keys (q : Query) : ∀ k ∈ JsVal.keys (gotoParams q), k ∈ allowList := by
  intro k hk
  simp only [gotoParams, JsVal.keys, List.map_append, List.mem_append, List.map_cons,
    List.map_nil, List.mem_cons, List.mem_singleton] at hk
  simp only [allowList, List.mem_cons, List.mem_singleton]
  have key := fun name v h => keys_optionalParam name v k h
  simp only [JsVal.keys] at key
  rcases hk with ((((h | h) | h) | h) | h) | h
  · simp only [List.not_mem_nil, or_false] at h; tauto
  · have := key _ _ h; tauto
  · have := key _ _ h; tauto
  · have := key _ _ h; tauto
  · have := key _ _ h; tauto
  · have := key _ _ h; tauto

theorem gotoParams_not_allowed (q : Query) (k : String) (h : k ∉ allowList) :
    JsVal.lookup k (gotoParams q) = none := by
  simp only [allowList, List.mem_cons, List.mem_singleton, List.not_mem_nil, or_false,
    not_or] at h
  obtain ⟨h1, h2, h3, h4, h5, h6, h7, h8⟩ := h
  simp [gotoParams, lookup_append, JsVal.lookup,
    lookup_optionalParam_ne (Ne.symm h4), lookup_optionalParam_ne (Ne.symm h5),
    lookup_optionalParam_ne (Ne.symm h6), lookup_optionalParam_ne (Ne.symm h7),
    lookup_optionalParam_ne (Ne.symm h8), Ne.symm h1, Ne.symm h2, Ne.symm h3]

theorem gotoParams_forwarded (q : Query) (k : String) (hk : k ∈ allowList) (v : QVal)
    (hv : Query.find k q = some v) :
    JsVal.lookup k (gotoParams q) = some v.toJs := by
  simp only [allowList, List.mem_cons, List.mem_singleton, List.not_mem_nil, or_false] at hk
  rcases hk with rfl | rfl | rfl | rfl | rfl | rfl | rfl | rfl
  · simp [gotoParams, JsVal.lookup, query_get_of_find hv]
  · simp [gotoParams, JsVal.lookup, query_get_of_find hv]
  · simp [gotoParams, JsVal.lookup, query_get_of_find hv]
  · simp [gotoParams, lookup_append, JsVal.lookup, optionalParam_of_find hv]
  · simp [gotoParams, lookup_append, JsVal.lookup, optionalParam_of_find hv,
      lookup_optionalParam_ne]
  · simp [gotoParams, lookup_append, JsVal.lookup, optionalParam_of_find hv,
      lookup_optionalParam_ne]
  · simp [gotoParams, lookup_append, JsVal.lookup, optionalParam_of_find hv,
      lookup_optionalParam_ne]
  · simp [gotoParams, lookup_append, JsVal.lookup, optionalParam_of_find hv,
      lookup_optionalParam_ne]

/-- C4: the params of the call hold only names of the allow-list; every
allow-listed name the query has is a param with the query's value; and a name
outside the allow-list, `accessToken` among them, is no param. -/
theorem user_activity_params_allow_listed
    (axiosGet : String → String → List (String × JsVal) → AxiosResult) (s : State) (q : Query)
    (url auth : String) (params : List (String × JsVal))
    (hcall : Effect.httpGet url auth params ∈ (userActivityRoute axiosGet s q).2.2) :
    (∀ k ∈ JsVal.keys params, k ∈ allowList)
    ∧ (∀ k ∈ allowList, ∀ v, Query.find k q = some v → JsVal.lookup k params = some v.toJs)
    ∧ (∀ k, k ∉ allowList → JsVal.lookup k params = none)
    ∧ JsVal.lookup "accessToken" params = none := by
  obtain ⟨_, _, _, _, _, hparams, _⟩ := userActivity_call axiosGet s q url auth params hcall
  subst hparams
  exact ⟨gotoParams_keys q, gotoParams_forwarded q, gotoParams_not_allowed q,
    gotoParams_not_allowed q "accessToken" (by decide)⟩

theorem user_activity_params_allow_listed_witness :
    Effect.httpGet gotoUrl "Bearer tok"
        (gotoParams [("startTime", QVal.str "2024-01-01T00:00:00Z"), ("page", QVal.str "2"),
          ("accessToken", QVal.str "tok"), ("debug", QVal.str "1")])
      ∈ (userActivityRoute (fun _ _ _ => AxiosResult.response 200 (JsVal.obj []))
          { expectedState := JsVal.null, latestAccessToken := JsVal.null,
            latestRefreshToken := JsVal.null, tokenFile := none }
          [("startTime", QVal.str "2024-01-01T00:00:00Z"), ("page", QVal.str "2"),
            ("accessToken", QVal.str "tok"), ("debug", QVal.str "1")]).2.2
    ∧ JsVal.lookup "page"
        (gotoParams [("startTime", QVal.str "2024-01-01T00:00:00Z"), ("page", QVal.str "2"),
          ("accessToken", QVal.str "tok"), ("debug", QVal.str "1")])
      = some (JsVal.str "2")
    ∧ JsVal.lookup "debug"
        (gotoParams [("startTime", QVal.str "2024-01-01T00:00:00Z"), ("page", QVal.str "2"),
          ("accessToken", QVal.str "tok"), ("debug", QVal.str "1")])
      = none
    ∧ JsVal.lookup "accessToken"
        (gotoParams [("startTime", QVal.str "2024-01-01T00:00:00Z"), ("page", QVal.str "2"),
          ("accessToken", QVal.str "tok"), ("debug", QVal.str "1")])
      = none :=
  have h := user_activity_params_allow_listed
    (fun _ _ _ => AxiosResult.response 200 (JsVal.obj []))
    { expectedState := JsVal.null, latestAccessToken := JsVal.null,
      latestRefreshToken := JsVal.null, tokenFile := none }
    [("startTime", QVal.str "2024-01-01T00:00:00Z"), ("page", QVal.str "2"),
      ("accessToken", QVal.str "tok"), ("debug", QVal.str "1")]
    gotoUrl "Bearer tok"
    (gotoParams [("startTime", QVal.str "2024-01-01T00:00:00Z"), ("page", QVal.str "2"),
      ("accessToken", QVal.str "tok"), ("debug", QVal.str "1")])
    (List.Mem.head _)
  ⟨List.Mem.head _, h.2.1 "page" (by decide) (QVal.str "2") rfl, h.2.2.1 "debug" (by decide),
    h.2.2.2⟩

/-! ## The token file -/

theorem saveTokens_obj (kvs : List (String × JsVal)) :
    ∃ text, saveTokens (JsVal.obj kvs) = some text := by
  simp [saveTokens, jsonStringify, serValue]

/-- C7: for every pair of an access token and an optional refresh token,
`saveTokens` writes a file from which `loadTokens` returns an object with the
same `accessToken` and `refreshToken` (`undefined` when absent), and a start
of the process on that file leaves exactly these two values in memory.  In
particular, after a callback whose exchange gave string tokens, a restart on
the file the callback wrote restores them. -/
theorem save_load_round_trip (a : String) (r : Option String) :
    (∃ text, saveTokens (pairObject a r) = some text
      ∧ (∃ v, loadTokens (some text) = .ok v
          ∧ v.getProp "accessToken" = JsVal.str a
          ∧ v.getProp "refreshToken" = refreshValue r)
      ∧ startup (some text)
          = .ok { expectedState := JsVal.null, latestAccessToken := JsVal.str a,
                  latestRefreshToken := refreshValue r, tokenFile := some text })
    ∧ (∀ (client : OAuthClient) (redirectUri : JsVal) (s : State) (q : Query)
        (token : List (String × JsVal)),
        strictNe (q.get "state") s.expectedState = false →
        client.getToken (q.get "code") redirectUri SCOPE = .ok token →
        (JsVal.obj token).getProp "access_token" = JsVal.str a →
        (JsVal.obj token).getProp "refresh_token" = refreshValue r →
        startup (callbackRoute client redirectUri s q).1.tokenFile
          = .ok { expectedState := JsVal.null, latestAccessToken := JsVal.str a,
                  latestRefreshToken := refreshValue r,
                  tokenFile := (callbackRoute client redirectUri s q).1.tokenFile }) := by
  constructor
  · exact ⟨pairText a r, saveTokens_pair a r,
      ⟨pairParsed a r, loadTokens_pairText a r, pairParsed_accessToken a r,
        pairParsed_refreshToken a r⟩, startup_pairText a r⟩
  · intro client redirectUri s q token hstate hgrant ha hr
    have hfile : (callbackRoute client redirectUri s q).1.tokenFile = some (pairText a r) := by
      have hsave := saveTokens_pair a r
      simp only [pairObject] at hsave
      simp only [callbackRoute, hstate, getToken, hgrant, ha, hr, hsave]
      rfl
    rw [hfile]
    exact startup_pairText a r

/-- C2, as amended: after a callback whose state matches and whose exchange
gives a token object with a truthy `access_token` (for a string: a non-empty
one), the two token variables hold `access_token` and `refresh_token`, the
token file holds the text `saveTokens` makes of exactly that pair, and a
following `GET /api/latest-access-token` answers 200 with `accessToken` set to
`access_token`.  When both are strings (the refresh token possibly absent),
reading the file back gives that pair. -/
theorem callback_success_stores_token (client : OAuthClient) (redirectUri : JsVal)
    (s : State) (q : Query) (token : List (String × JsVal))
    (hstate : strictNe (q.get "state") s.expectedState = false)
    (hgrant : client.getToken (q.get "code") redirectUri SCOPE = .ok token)
    (htruthy : ((JsVal.obj token).getProp "access_token").truthy = true) :
    ∃ text,
      saveTokens (JsVal.obj [("accessToken", (JsVal.obj token).getProp "access_token"),
                            ("refreshToken", (JsVal.obj token).getProp "refresh_token")])
        = some text
      ∧ callbackRoute client redirectUri s q
        = ({ expectedState := s.expectedState,
             latestAccessToken := (JsVal.obj token).getProp "access_token",
             latestRefreshToken := (JsVal.obj token).getProp "refresh_token",
             tokenFile := some text },
           { status := 200, body := Body.text "Access token received. Check your terminal." },
           [Effect.tokenRequest (q.get "code") redirectUri SCOPE, Effect.writeFile text])
      ∧ (latestAccessTokenRoute (callbackRoute client redirectUri s q).1).2.1
        = { status := 200,
            body := Body.json
              (JsVal.obj [("accessToken", (JsVal.obj token).getProp "access_token")]) }
      ∧ (∀ a r, (JsVal.obj token).getProp "access_token" = JsVal.str a →
          (JsVal.obj token).getProp "refresh_token" = refreshValue r →
          loadTokens (some text) = .ok (pairParsed a r)) := by
  obtain ⟨text, htext⟩ := saveTokens_obj
    [("accessToken", (JsVal.obj token).getProp "access_token"),
     ("refreshToken", (JsVal.obj token).getProp "refresh_token")]
  have hroute : callbackRoute client redirectUri s q
      = ({ expectedState := s.expectedState,
           latestAccessToken := (JsVal.obj token).getProp "access_token",
           latestRefreshToken := (JsVal.obj token).getProp "refresh_token",
           tokenFile := some text },
         { status := 200, body := Body.text "Access token received. Check your terminal." },
         [Effect.tokenRequest (q.get "code") redirectUri SCOPE, Effect.writeFile text]) := by
    simp only [callbackRoute, hstate, getToken, hgrant, htext]
    rfl
  refine ⟨text, htext, hroute, ?_, ?_⟩
  · rw [hroute]
    simp only [latestAccessTokenRoute, htruthy, if_true]
  · intro a r ha hr
    rw [ha, hr] at htext
    have hsave := saveTokens_pair a r
    simp only [pairObject] at hsave
    rw [hsave] at htext
    cases htext
    exact loadTokens_pairText a r

theorem callback_success_stores_token_witness :
    (latestAccessTokenRoute
        (callbackRoute
          (grantingClient [("access_token", JsVal.str "tok"), ("refresh_token", JsVal.str "ref")])
          JsVal.undefined
          { expectedState := JsVal.str "abc", latestAccessToken := JsVal.null,
            latestRefreshToken := JsVal.null, tokenFile := none }
          [("state", QVal.str "abc"), ("code", QVal.str "c0de")]).1).2.1
      = { status := 200, body := Body.json (JsVal.obj [("accessToken", JsVal.str "tok")]) } :=
  (callback_success_stores_token
      (grantingClient [("access_token", JsVal.str "tok"), ("refresh_token", JsVal.str "ref")])
      JsVal.undefined
      { expectedState := JsVal.str "abc", latestAccessToken := JsVal.null,
        latestRefreshToken := JsVal.null, tokenFile := none }
      [("state", QVal.str "abc"), ("code", QVal.str "c0de")]
      [("access_token", JsVal.str "tok"), ("refresh_token", JsVal.str "ref")]
      (by decide) rfl (by decide)).elim fun _ h => h.2.2.1

/-- C2 fails as stated: the state matches and the exchange succeeds with the
token object `access_token: "", refresh_token: "ref"`; the callback answers 200
and stores the pair, and the following `GET /api/latest-access-token` answers
404 `No access token available`, not 200. -/
theorem callback_success_stores_token_counterexample :
    (callbackRoute
        (grantingClient [("access_token", JsVal.str ""), ("refresh_token", JsVal.str "ref")])
        JsVal.undefined
        { expectedState := JsVal.str "abc", latestAccessToken := JsVal.null,
          latestRefreshToken := JsVal.null, tokenFile := none }
        [("state", QVal.str "abc"), ("code", QVal.str "c0de")]).2.1
      = { status := 200, body := Body.text "Access token received. Check your terminal." }
    ∧ (latestAccessTokenRoute
        (callbackRoute
          (grantingClient [("access_token", JsVal.str ""), ("refresh_token", JsVal.str "ref")])
          JsVal.undefined
          { expectedState := JsVal.str "abc", latestAccessToken := JsVal.null,
            latestRefreshToken := JsVal.null, tokenFile := none }
          [("state", QVal.str "abc"), ("code", QVal.str "c0de")]).1).2.1
      = { status := 404,
          body := Body.json (JsVal.obj [("error", JsVal.str "No access token available")]) } := by
  constructor <;> rfl

/-! ## The recursion budget of the parser -/

theorem skipWs_length (l : List Char) : (skipWs l).length ≤ l.length := by
  induction l with
  | nil => simp [skipWs]
  | cons c cs ih =>
    simp only [skipWs]
    split
    · simp only [List.length_cons]; omega
    · exact Nat.le_refl _

theorem consUnit_props (u : Nat) (r : Except ParseError (List Nat × List Char)) (n : Nat)
    (h : r ≠ .error .outOfFuel ∧ ∀ us rest, r = .ok (us, rest) → rest.length < n) :
    consUnit u r ≠ .error .outOfFuel
      ∧ ∀ us rest, consUnit u r = .ok (us, rest) → rest.length < n := by
  cases r with
  | error e =>
    constructor
    · intro hc; simp only [consUnit] at hc; exact h.1 hc
    · intro us rest hc; simp [consUnit] at hc
  | ok p =>
    obtain ⟨us0, rest0⟩ := p
    constructor
    · simp [consUnit]
    · intro us rest hc
      simp only [consUnit, Except.ok.injEq, Prod.mk.injEq] at hc
      have := h.2 us0 rest0 rfl
      rw [← hc.2]; exact this

theorem scanString_nil : scanString [] = .error .malformed := by
  rw [scanString.eq_def]

theorem scanString_props_aux (n : Nat) : ∀ input : List Char, input.length ≤ n →
    scanString input ≠ .error .outOfFuel
      ∧ ∀ us rest, scanString input = .ok (us, rest) → rest.length < input.length := by
  induction n with
  | zero =>
    intro input h
    have : input = [] := List.length_eq_zero.mp (Nat.le_zero.mp h)
    subst this
    simp [scanString_nil]
  | succ m ih =>
    intro input h
    cases input with
    | nil => simp [scanString_nil]
    | cons c cs =>
      have step : ∀ (sub : List Char) (u : Nat), sub.length ≤ cs.length →
          consUnit u (scanString sub) ≠ .error .outOfFuel
            ∧ ∀ us rest, consUnit u (scanString sub) = .ok (us, rest) →
                rest.length < (c :: cs).length := by
        intro sub u hsub
        have hm : sub.length ≤ m := by simp only [List.length_cons] at h; omega
        obtain ⟨h1, h2⟩ := ih sub hm
        refine consUnit_props u _ _ ⟨h1, fun us rest hr => ?_⟩
        have := h2 us rest hr
        simp only [List.length_cons]; omega
      rw [scanString_cons]
      by_cases hq : c = dquote
      · rw [if_pos hq]
        constructor
        · simp
        · intro us rest hr
          simp only [Except.ok.injEq, Prod.mk.injEq] at hr
          rw [← hr.2]; simp
      rw [if_neg hq]
      by_cases hb : c = bslash
      · rw [if_pos hb]
        cases cs with
        | nil => simp
        | cons e cs1 =>
          have h1 : cs1.length ≤ (e :: cs1).length := by simp
          simp only []
          by_cases e1 : e = dquote
          · rw [if_pos e1]; exact step cs1 _ h1
          rw [if_neg e1]
          by_cases e2 : e = bslash
          · rw [if_pos e2]; exact step cs1 _ h1
          rw [if_neg e2]
          by_cases e3 : e = '/'
          · rw [if_pos e3]; exact step cs1 _ h1
          rw [if_neg e3]
          by_cases e4 : e = 'b'
          · rw [if_pos e4]; exact step cs1 _ h1
          rw [if_neg e4]
          by_cases e5 : e = 'f'
          · rw [if_pos e5]; exact step cs1 _ h1
          rw [if_neg e5]
          by_cases e6 : e = 'n'
          · rw [if_pos e6]; exact step cs1 _ h1
          rw [if_neg e6]
          by_cases e7 : e = 'r'
          · rw [if_pos e7]; exact step cs1 _ h1
          rw [if_neg e7]
          by_cases e8 : e = 't'
          · rw [if_pos e8]; exact step cs1 _ h1
          rw [if_neg e8]
          by_cases e9 : e = 'u'
          · rw [if_pos e9]
            match cs1 with
            | [] => simp
            | [_] => simp
            | [_, _] => simp
            | [_, _, _] => simp
            | a1 :: a2 :: a3 :: a4 :: cs2 =>
              simp only []
              cases hex4 a1 a2 a3 a4 with
              | none => simp
              | some u =>
                simp only []
                exact step cs2 _ (by simp only [List.length_cons]; omega)
          · rw [if_neg e9]; simp
      rw [if_neg hb]
      by_cases hc : c.toNat < 32
      · rw [if_pos hc]; simp
      · rw [if_neg hc]; exact step cs _ (Nat.le_refl _)

theorem scanString_props (input : List Char) :
    scanString input ≠ .error .outOfFuel
      ∧ ∀ us rest, scanString input = .ok (us, rest) → rest.length < input.length :=
  scanString_props_aux input.length input (Nat.le_refl _)

theorem decodeUnits_ne_outOfFuel_aux (n : Nat) : ∀ us : List Nat, us.length ≤ n →
    decodeUnits us ≠ .error .outOfFuel := by
  induction n with
  | zero =>
    intro us h
    have : us = [] := List.length_eq_zero.mp (Nat.le_zero.mp h)
    subst this
    simp [decodeUnits]
  | succ m ih =>
    intro us h
    match us with
    | [] => simp [decodeUnits]
    | [u] =>
      simp only [decodeUnits]
      split <;> simp
    | u :: v :: rest =>
      have h1 : decodeUnits rest ≠ .error .outOfFuel :=
        ih rest (by simp only [List.length_cons] at h; omega)
      have h2 : decodeUnits (v :: rest) ≠ .error .outOfFuel :=
        ih (v :: rest) (by simp only [List.length_cons] at h ⊢; omega)
      rw [decodeUnits]
      split
      · split
        · cases hd : decodeUnits rest with
          | ok cs => simp
          | error e => simp only [ne_eq, Except.error.injEq]; intro he; exact h1 (by rw [hd, he])
        · simp
      · split
        · simp
        · cases hd : decodeUnits (v :: rest) with
          | ok cs => simp
          | error e => simp only [ne_eq, Except.error.injEq]; intro he; exact h2 (by rw [hd, he])

theorem decodeUnits_ne_outOfFuel (us : List Nat) : decodeUnits us ≠ .error .outOfFuel :=
  decodeUnits_ne_outOfFuel_aux us.length us (Nat.le_refl _)

theorem parseString_props (input : List Char) :
    parseString input ≠ .error .outOfFuel
      ∧ ∀ s rest, parseString input = .ok (s, rest) → rest.length < input.length := by
  obtain ⟨h1, h2⟩ := scanString_props input
  unfold parseString
  cases hs : scanString input with
  | error e =>
    simp only [ne_eq, Except.error.injEq]
    exact ⟨fun he => h1 (by rw [hs, he]), fun _ _ h => by cases h⟩
  | ok p =>
    obtain ⟨us, rest0⟩ := p
    have hlen := h2 us rest0 hs
    simp only []
    cases hd : decodeUnits us with
    | error e =>
      simp only [ne_eq, Except.error.injEq]
      exact ⟨fun he => decodeUnits_ne_outOfFuel us (by rw [hd, he]), fun _ _ h => by cases h⟩
    | ok cs =>
      simp only [ne_eq, Except.ok.injEq, Prod.mk.injEq, not_false_eq_true, true_and, reduceCtorEq]
      intro s rest h
      rw [← h.2]; exact hlen

theorem dropLiteral_length (lit input rest : List Char) (h : dropLiteral lit input = some rest) :
    rest.length ≤ input.length := by
  induction lit generalizing input with
  | nil =>
    simp only [dropLiteral, Option.some.injEq] at h
    rw [h]
  | cons l ls ih =>
    cases input with
    | nil => simp [dropLiteral] at h
    | cons c cs =>
      simp only [dropLiteral] at h
      split at h
      · have := ih cs h
        simp only [List.length_cons]; omega
      · cases h

theorem parseValue_zero (input : List Char) : parseValue 0 input = .error .outOfFuel := by
  rw [parseValue.eq_def]

theorem parseValue_succ_nil (fuel : Nat) : parseValue (fuel + 1) [] = .error .malformed := by
  rw [parseValue.eq_def]

theorem parseValue_succ_cons (fuel : Nat) (c : Char) (cs : List Char) :
    parseValue (fuel + 1) (c :: cs) =
      if c = lbrace then
        match skipWs cs with
        | d :: rest => if d = rbrace then .ok (JsVal.obj [], rest)
                       else parseMembers fuel (d :: rest) []
        | [] => .error .malformed
      else if c = lbracket then
        match skipWs cs with
        | d :: rest => if d = rbracket then .ok (JsVal.arr [], rest)
                       else parseElements fuel (d :: rest) []
        | [] => .error .malformed
      else if c = dquote then
        match parseString cs with
        | .ok (s, rest) => .ok (JsVal.str s, rest)
        | .error e => .error e
      else if c = 't' then
        match dropLiteral ['r', 'u', 'e'] cs with
        | some rest => .ok (JsVal.bool true, rest)
        | none => .error .malformed
      else if c = 'f' then
        match dropLiteral ['a', 'l', 's', 'e'] cs with
        | some rest => .ok (JsVal.bool false, rest)
        | none => .error .malformed
      else if c = 'n' then
        match dropLiteral ['u', 'l', 'l'] cs with
        | some rest => .ok (JsVal.null, rest)
        | none => .error .malformed
      else if c = '-' ∨ (48 ≤ c.toNat ∧ c.toNat ≤ 57) then .error .unsupported
      else .error .malformed := by
  rw [parseValue.eq_def]

theorem parseMembers_zero (input : List Char) (acc : List (String × JsVal)) :
    parseMembers 0 input acc = .error .outOfFuel := by
  rw [parseMembers.eq_def]

theorem parseMembers_succ_nil (fuel : Nat) (acc : List (String × JsVal)) :
    parseMembers (fuel + 1) [] acc = .error .malformed := by
  rw [parseMembers.eq_def]

theorem parseMembers_succ_cons (fuel : Nat) (c : Char) (cs : List Char)
    (acc : List (String × JsVal)) :
    parseMembers (fuel + 1) (c :: cs) acc =
      if c = dquote then
        match parseString cs with
        | .error e => .error e
        | .ok (k, rest) =>
          match skipWs rest with
          | colon :: rest1 =>
            if colon = ':' then
              match parseValue fuel (skipWs rest1) with
              | .error e => .error e
              | .ok (v, rest2) =>
                match skipWs rest2 with
                | d :: rest3 =>
                  if d = ',' then parseMembers fuel (skipWs rest3) (setProp k v acc)
                  else if d = rbrace then .ok (JsVal.obj (setProp k v acc), rest3)
                  else .error .malformed
                | [] => .error .malformed
            else .error .malformed
          | [] => .error .malformed
      else .error .malformed := by
  rw [parseMembers.eq_def]

theorem parseElements_zero (input : List Char) (acc : List JsVal) :
    parseElements 0 input acc = .error .outOfFuel := by
  rw [parseElements.eq_def]

theorem parseElements_succ (fuel : Nat) (input : List Char) (acc : List JsVal) :
    parseElements (fuel + 1) input acc =
      match parseValue fuel input with
      | .error e => .error e
      | .ok (v, rest) =>
        match skipWs rest with
        | d :: rest1 =>
          if d = ',' then parseElements fuel (skipWs rest1) (acc ++ [v])
          else if d = rbracket then .ok (JsVal.arr (acc ++ [v]), rest1)
          else .error .malformed
        | [] => .error .malformed := by
  rw [parseElements.eq_def]

theorem literal_props (lit cs : List Char) (c : Char) (v : JsVal) :
    (match dropLiteral lit cs with
      | some rest => (Except.ok (v, rest) : Except ParseError (JsVal × List Char))
      | none => .error .malformed) ≠ .error .outOfFuel
    ∧ ∀ w rest, (match dropLiteral lit cs with
      | some rest => (Except.ok (v, rest) : Except ParseError (JsVal × List Char))
      | none => .error .malformed) = .ok (w, rest) → rest.length < (c :: cs).length := by
  cases h : dropLiteral lit cs with
  | none => simp
  | some r =>
    have := dropLiteral_length lit cs r h
    simp only [ne_eq, reduceCtorEq, not_false_eq_true, Except.ok.injEq, Prod.mk.injEq, true_and,
      List.length_cons]
    intro w rest hr
    rw [← hr.2]; omega

theorem parseValue_step (fuel : Nat)
    (ihM : ∀ input acc,
      (2 * input.length + 1 ≤ fuel → parseMembers fuel input acc ≠ .error .outOfFuel)
      ∧ ∀ v rest, parseMembers fuel input acc = .ok (v, rest) → rest.length < input.length)
    (ihE : ∀ input acc,
      (2 * input.length + 2 ≤ fuel → parseElements fuel input acc ≠ .error .outOfFuel)
      ∧ ∀ v rest, parseElements fuel input acc = .ok (v, rest) → rest.length < input.length)
    (input : List Char) :
    (2 * input.length + 1 ≤ fuel + 1 → parseValue (fuel + 1) input ≠ .error .outOfFuel)
    ∧ ∀ v rest, parseValue (fuel + 1) input = .ok (v, rest) → rest.length < input.length := by
  cases input with
  | nil => rw [parseValue_succ_nil]; simp
  | cons c cs =>
    rw [parseValue_succ_cons]
    have hsk := skipWs_length cs
    by_cases h1 : c = lbrace
    · rw [if_pos h1]
      cases hs : skipWs cs with
      | nil => simp
      | cons d rest0 =>
        rw [hs] at hsk
        simp only [List.length_cons] at hsk
        simp only []
        by_cases hd : d = rbrace
        · rw [if_pos hd]
          simp only [ne_eq, reduceCtorEq, not_false_eq_true, implies_true, Except.ok.injEq,
            Prod.mk.injEq, true_and, List.length_cons]
          intro v rest hr
          rw [← hr.2]; omega
        · rw [if_neg hd]
          obtain ⟨hA, hB⟩ := ihM (d :: rest0) []
          refine ⟨fun hf => hA ?_, fun v rest hr => ?_⟩
          · simp only [List.length_cons] at hf ⊢; omega
          · have := hB v rest hr
            simp only [List.length_cons] at this ⊢; omega
    rw [if_neg h1]
    by_cases h2 : c = lbracket
    · rw [if_pos h2]
      cases hs : skipWs cs with
      | nil => simp
      | cons d rest0 =>
        rw [hs] at hsk
        simp only [List.length_cons] at hsk
        simp only []
        by_cases hd : d = rbracket
        · rw [if_pos hd]
          simp only [ne_eq, reduceCtorEq, not_false_eq_true, implies_true, Except.ok.injEq,
            Prod.mk.injEq, true_and, List.length_cons]
          intro v rest hr
          rw [← hr.2]; omega
        · rw [if_neg hd]
          obtain ⟨hA, hB⟩ := ihE (d :: rest0) []
          refine ⟨fun hf => hA ?_, fun v rest hr => ?_⟩
          · simp only [List.length_cons] at hf ⊢; omega
          · have := hB v rest hr
            simp only [List.length_cons] at this ⊢; omega
    rw [if_neg h2]
    by_cases h3 : c = dquote
    · rw [if_pos h3]
      obtain ⟨hA, hB⟩ := parseString_props cs
      cases hp : parseString cs with
      | error e =>
        simp only [ne_eq, Except.error.injEq, reduceCtorEq, false_implies, implies_true, and_true]
        intro _ he
        exact hA (by rw [hp, he])
      | ok p =>
        obtain ⟨str0, rest0⟩ := p
        have := hB str0 rest0 hp
        simp only [ne_eq, reduceCtorEq, not_false_eq_true, implies_true, Except.ok.injEq,
          Prod.mk.injEq, true_and, List.length_cons]
        intro v rest hr
        rw [← hr.2]; omega
    rw [if_neg h3]
    by_cases h4 : c = 't'
    · rw [if_pos h4]
      exact ⟨fun _ => (literal_props _ cs c _).1, (literal_props _ cs c _).2⟩
    rw [if_neg h4]
    by_cases h5 : c = 'f'
    · rw [if_pos h5]
      exact ⟨fun _ => (literal_props _ cs c _).1, (literal_props _ cs c _).2⟩
    rw [if_neg h5]
    by_cases h6 : c = 'n'
    · rw [if_pos h6]
      exact ⟨fun _ => (literal_props _ cs c _).1, (literal_props _ cs c _).2⟩
    rw [if_neg h6]
    split <;> simp

theorem parseMembers_step (fuel : Nat)
    (ihV : ∀ input,
      (2 * input.length + 1 ≤ fuel → parseValue fuel input ≠ .error .outOfFuel)
      ∧ ∀ v rest, parseValue fuel input = .ok (v, rest) → rest.length < input.length)
    (ihM : ∀ input acc,
      (2 * input.length + 1 ≤ fuel → parseMembers fuel input acc ≠ .error .outOfFuel)
      ∧ ∀ v rest, parseMembers fuel input acc = .ok (v, rest) → rest.length < input.length)
    (input : List Char) (acc : List (String × JsVal)) :
    (2 * input.length + 1 ≤ fuel + 1 → parseMembers (fuel + 1) input acc ≠ .error .outOfFuel)
    ∧ ∀ v rest, parseMembers (fuel + 1) input acc = .ok (v, rest) →
        rest.length < input.length := by
  cases input with
  | nil => rw [parseMembers_succ_nil]; simp
  | cons c cs =>
    rw [parseMembers_succ_cons]
    by_cases h1 : c = dquote
    swap
    · rw [if_neg h1]; simp
    rw [if_pos h1]
    obtain ⟨hSA, hSB⟩ := parseString_props cs
    cases hp : parseString cs with
    | error e =>
      simp only [ne_eq, Except.error.injEq, reduceCtorEq, false_implies, implies_true, and_true]
      intro _ he
      exact hSA (by rw [hp, he])
    | ok p =>
      obtain ⟨k, rest0⟩ := p
      have hk := hSB k rest0 hp
      have hsk0 := skipWs_length rest0
      simp only []
      cases hs0 : skipWs rest0 with
      | nil => simp
      | cons colon rest1 =>
        rw [hs0] at hsk0
        simp only [List.length_cons] at hsk0
        simp only []
        by_cases hc : colon = ':'
        swap
        · rw [if_neg hc]; simp
        rw [if_pos hc]
        have hsk1 := skipWs_length rest1
        obtain ⟨hVA, hVB⟩ := ihV (skipWs rest1)
        cases hv : parseValue fuel (skipWs rest1) with
        | error e =>
          simp only [ne_eq, Except.error.injEq, reduceCtorEq, false_implies, implies_true,
            and_true, List.length_cons]
          intro hf he
          exact hVA (by omega) (by rw [hv, he])
        | ok pv =>
          obtain ⟨v0, rest2⟩ := pv
          have hv2 := hVB v0 rest2 hv
          have hsk2 := skipWs_length rest2
          simp only []
          cases hs2 : skipWs rest2 with
          | nil => simp
          | cons d rest3 =>
            rw [hs2] at hsk2
            simp only [List.length_cons] at hsk2
            simp only []
            have hsk3 := skipWs_length rest3
            by_cases hd : d = ','
            · rw [if_pos hd]
              obtain ⟨hA, hB⟩ := ihM (skipWs rest3) (setProp k v0 acc)
              refine ⟨fun hf => hA ?_, fun v rest hr => ?_⟩
              · simp only [List.length_cons] at hf; omega
              · have := hB v rest hr
                simp only [List.length_cons]; omega
            rw [if_neg hd]
            by_cases hb : d = rbrace
            · rw [if_pos hb]
              simp only [ne_eq, reduceCtorEq, not_false_eq_true, implies_true, Except.ok.injEq,
                Prod.mk.injEq, true_and, List.length_cons]
              intro v rest hr
              rw [← hr.2]; omega
            · rw [if_neg hb]; simp

theorem parseElements_step (fuel : Nat)
    (ihV : ∀ input,
      (2 * input.length + 1 ≤ fuel → parseValue fuel input ≠ .error .outOfFuel)
      ∧ ∀ v rest, parseValue fuel input = .ok (v, rest) → rest.length < input.length)
    (ihE : ∀ input acc,
      (2 * input.length + 2 ≤ fuel → parseElements fuel input acc ≠ .error .outOfFuel)
      ∧ ∀ v rest, parseElements fuel input acc = .ok (v, rest) → rest.length < input.length)
    (input : List Char) (acc : List JsVal) :
    (2 * input.length + 2 ≤ fuel + 1 → parseElements (fuel + 1) input acc ≠ .error .outOfFuel)
    ∧ ∀ v rest, parseElements (fuel + 1) input acc = .ok (v, rest) →
        rest.length < input.length := by
  rw [parseElements_succ]
  obtain ⟨hVA, hVB⟩ := ihV input
  cases hv : parseValue fuel input with
  | error e =>
    simp only [ne_eq, Except.error.injEq, reduceCtorEq, false_implies, implies_true, and_true]
    intro hf he
    exact hVA (by omega) (by rw [hv, he])
  | ok pv =>
    obtain ⟨v0, rest0⟩ := pv
    have hv0 := hVB v0 rest0 hv
    have hsk0 := skipWs_length rest0
    simp only []
    cases hs0 : skipWs rest0 with
    | nil => simp
    | cons d rest1 =>
      rw [hs0] at hsk0
      simp only [List.length_cons] at hsk0
      simp only []
      have hsk1 := skipWs_length rest1
      by_cases hd : d = ','
      · rw [if_pos hd]
        obtain ⟨hA, hB⟩ := ihE (skipWs rest1) (acc ++ [v0])
        refine ⟨fun hf => hA ?_, fun v rest hr => ?_⟩
        · omega
        · have := hB v rest hr
          omega
      rw [if_neg hd]
      by_cases hb : d = rbracket
      · rw [if_pos hb]
        simp only [ne_eq, reduceCtorEq, not_false_eq_true, implies_true, Except.ok.injEq,
          Prod.mk.injEq, true_and]
        intro v rest hr
        rw [← hr.2]; omega
      · rw [if_neg hb]; simp

/-- The parser's recursion budget: with fuel above twice the length of the text
no parsing function reports `outOfFuel`, and each one that succeeds has consumed
at least one character. -/
theorem parser_budget (fuel : Nat) :
    (∀ input,
      (2 * input.length + 1 ≤ fuel → parseValue fuel input ≠ .error .outOfFuel)
      ∧ ∀ v rest, parseValue fuel input = .ok (v, rest) → rest.length < input.length)
    ∧ (∀ input acc,
      (2 * input.length + 1 ≤ fuel → parseMembers fuel input acc ≠ .error .outOfFuel)
      ∧ ∀ v rest, parseMembers fuel input acc = .ok (v, rest) → rest.length < input.length)
    ∧ (∀ input acc,
      (2 * input.length + 2 ≤ fuel → parseElements fuel input acc ≠ .error .outOfFuel)
      ∧ ∀ v rest, parseElements fuel input acc = .ok (v, rest) → rest.length < input.length) := by
  induction fuel with
  | zero =>
    refine ⟨fun input => ⟨fun h => by omega, fun v rest h => ?_⟩,
      fun input acc => ⟨fun h => by omega, fun v rest h => ?_⟩,
      fun input acc => ⟨fun h => by omega, fun v rest h => ?_⟩⟩
    · rw [parseValue_zero] at h; cases h
    · rw [parseMembers_zero] at h; cases h
    · rw [parseElements_zero] at h; cases h
  | succ n ih =>
    obtain ⟨ihV, ihM, ihE⟩ := ih
    exact ⟨parseValue_step n ihM ihE, parseMembers_step n ihV ihM, parseElements_step n ihV ihE⟩

/-- The model of `JSON.parse` never runs out of fuel: every text is either
parsed, rejected as malformed, or outside the model. -/
theorem jsonParse_ne_outOfFuel (text : String) : jsonParse text ≠ .error .outOfFuel := by
  unfold jsonParse
  have hlen := skipWs_length text.data
  have hfuel : 2 * (skipWs text.data).length + 1 ≤ 2 * text.length + 2 := by
    simp only [String.length]; omega
  have h := ((parser_budget (2 * text.length + 2)).1 (skipWs text.data)).1 hfuel
  cases hp : parseValue (2 * text.length + 2) (skipWs text.data) with
  | error e =>
    simp only [ne_eq, Except.error.injEq]
    intro he
    exact h (by rw [hp, he])
  | ok p =>
    obtain ⟨v, rest⟩ := p
    simp only []
    split <;> simp

/-! ## Further properties of the gateway -/

theorem loadTokens_ne_outOfFuel (tokenFile : Option String) :
    loadTokens tokenFile ≠ .error .outOfFuel := by
  cases tokenFile with
  | none => simp [loadTokens]
  | some text =>
    have h := jsonParse_ne_outOfFuel text
    unfold loadTokens
    simp only []
    cases hp : jsonParse text with
    | ok v => simp
    | error e =>
      rw [hp] at h
      cases e with
      | malformed => simp
      | unsupported => simp
      | outOfFuel => exact absurd rfl h

/-- While the stored access token is falsy (`null`, `undefined`, the empty
string) `GET /api/latest-access-token` answers 404 `No access token available`,
makes no call and changes nothing. -/
theorem token_query_without_token (s : State) (h : s.latestAccessToken.truthy = false) :
    latestAccessTokenRoute s
      = (s, { status := 404,
              body := Body.json (JsVal.obj [("error", JsVal.str "No access token available")]) },
         []) := by
  simp [latestAccessTokenRoute, h]

theorem token_query_without_token_witness :
    latestAccessTokenRoute
        { expectedState := JsVal.null, latestAccessToken := JsVal.null,
          latestRefreshToken := JsVal.null, tokenFile := none }
      = ({ expectedState := JsVal.null, latestAccessToken := JsVal.null,
           latestRefreshToken := JsVal.null, tokenFile := none },
         { status := 404,
           body := Body.json (JsVal.obj [("error", JsVal.str "No access token available")]) },
         []) :=
  token_query_without_token _ rfl

/-- A start without token file, or on a file that is not JSON, gives a running
gateway whose two token variables are `undefined` and whose expected state is
`null`; the file is left as it was. -/
theorem startup_without_usable_file :
    startup none
      = .ok { expectedState := JsVal.null, latestAccessToken := JsVal.undefined,
              latestRefreshToken := JsVal.undefined, tokenFile := none }
    ∧ (∀ text, jsonParse text = .error .malformed →
        startup (some text)
          = .ok { expectedState := JsVal.null, latestAccessToken := JsVal.undefined,
                  latestRefreshToken := JsVal.undefined, tokenFile := some text })
    ∧ jsonParse "not json" = .error .malformed := by
  refine ⟨rfl, ?_, rfl⟩
  intro text h
  simp only [startup, loadTokens, h]
  rfl

/-- The proxy route and the token query are read-only: they return the state
they were given, and the only call the proxy route ever makes is the one GET to
the reporting API (no token request, no file write). -/
theorem read_only_routes
    (axiosGet : String → String → List (String × JsVal) → AxiosResult) (s : State) (q : Query) :
    (userActivityRoute axiosGet s q).1 = s
    ∧ (latestAccessTokenRoute s).1 = s
    ∧ (latestAccessTokenRoute s).2.2 = []
    ∧ ∀ e ∈ (userActivityRoute axiosGet s q).2.2,
        ∃ auth, e = Effect.httpGet gotoUrl auth (gotoParams q) := by
  refine ⟨?_, ?_, ?_, ?_⟩
  · unfold userActivityRoute
    simp only []
    split
    · rfl
    · split
      · rfl
      · split
        · rfl
        · split
          · split <;> rfl
          · rfl
  · unfold latestAccessTokenRoute; split <;> rfl
  · unfold latestAccessTokenRoute; split <;> rfl
  · intro e he
    unfold userActivityRoute at he
    simp only [] at he
    split at he
    · simp at he
    · split at he
      · simp at he
      · split at he
        · simp at he
        · next tokenText _ =>
          refine ⟨"Bearer " ++ tokenText, ?_⟩
          split at he
          · split at he <;> simpa using he
          · simpa using he

theorem strictEq_str_self (x : String) : strictEq (JsVal.str x) (JsVal.str x) = true := by
  simp [strictEq]

/-- After `GET /auth`, a callback that brings back the generated state passes the
state check: the handler goes on to the token request with the query's code. -/
theorem callback_after_auth_accepted (client : OAuthClient) (redirectUri : JsVal)
    (bytes : List Nat) (s : State) (q : Query)
    (h : Query.find "state" q = some (QVal.str (generateState bytes))) :
    (callbackRoute client redirectUri (authRoute client redirectUri bytes s).1 q).2.2.head?
      = some (Effect.tokenRequest (q.get "code") redirectUri SCOPE) := by
  have hq : q.get "state" = JsVal.str (generateState bytes) := by
    simp only [Query.get, h, QVal.toJs]
  have hne : strictNe (q.get "state") (authRoute client redirectUri bytes s).1.expectedState
      = false := by
    rw [hq]
    simp only [authRoute, getAuthUrl, strictNe, strictEq_str_self, Bool.not_true]
  unfold callbackRoute
  rw [hne]
  simp only [Bool.false_eq_true, if_false]
  split
  · split <;> rfl
  · rfl

theorem callback_after_auth_accepted_witness :
    (callbackRoute refusingClient JsVal.undefined
        (authRoute refusingClient JsVal.undefined [171, 205]
          { expectedState := JsVal.null, latestAccessToken := JsVal.null,
            latestRefreshToken := JsVal.null, tokenFile := none }).1
        [("code", QVal.str "c0de"), ("state", QVal.str (generateState [171, 205]))]).2.2.head?
      = some (Effect.tokenRequest
          (Query.get [("code", QVal.str "c0de"), ("state", QVal.str (generateState [171, 205]))]
            "code") JsVal.undefined SCOPE) :=
  callback_after_auth_accepted refusingClient JsVal.undefined [171, 205] _ _ rfl

end UserActRep
